import Mathlib

/-!
Verification of the statement-construction layer of mysql-connector-python
(`lib/mysqlx/statement.py`), as a shallow embedding in Lean 4.

Modelling conventions, fixed once for the whole development:

* Python values that flow through the index-descriptor validator and the
  bind machinery are modelled by `PyVal` (strings, booleans, integers,
  lists, dictionaries).  Python dictionaries are association lists in
  insertion order; `dict.pop` removes the (unique) entry for a key.
* Python exceptions are values of `PyErr`; a call that can raise returns
  `Except PyErr _` (or a pair of an optional error and the post-call
  state when the source mutates `self` before it may raise, as Python
  mutation survives an exception).
* The expression parser (`mysqlx.expr.ExprParser`), the transport
  connection and the JSON decoder are external collaborators (they are
  not part of this source file); each call of the embedded code into a
  collaborator takes the collaborator's answer as an explicit argument.
* Identifier-quoting helpers operate on Python strings indexed by
  position; these are modelled as `List Char`.
* Variadic `*args` parameters are modelled as `List` arguments; the
  `flexible_params` flattening of a single sequence argument is applied
  by the caller where noted.
-/

/-- Python exceptions raised (or propagated) by the statement layer. -/
inductive PyErr where
  | programmingError (msg : String)
  | notSupportedError (msg : String)
  | indexError
  | attributeError
  | valueError
deriving DecidableEq, Repr

/-- Python values handled by the statement layer: strings, booleans,
integers, lists and dictionaries (association lists in insertion order). -/
inductive PyVal where
  | vStr (s : String)
  | vBool (b : Bool)
  | vInt (n : Int)
  | vList (l : List PyVal)
  | vDict (d : List (String × PyVal))

/-- A Python dictionary with string keys. -/
abbrev PyDict := List (String × PyVal)

/-- `d[k]` lookup (first entry for the key; keys of a Python dict are unique). -/
def dictLookup (d : PyDict) (k : String) : Option PyVal :=
  (d.find? (fun kv => kv.1 == k)).map (·.2)

/-- `d.pop(k)` as a pure operation: the popped value (if any) and the
remaining dictionary.  When the key is absent the dictionary is unchanged
(Python raises `KeyError` / returns the default without mutating). -/
def dictPop (d : PyDict) (k : String) : Option PyVal × PyDict :=
  match dictLookup d k with
  | some v => (some v, d.eraseP (fun kv => kv.1 == k))
  | none => (none, d)

/-- Python truthiness of a `PyVal` (used by `if value:` tests). -/
def pyTruthy : PyVal → Bool
  | .vStr s => !s.isEmpty
  | .vBool b => b
  | .vInt n => n != 0
  | .vList l => !l.isEmpty
  | .vDict d => !d.isEmpty

/-- `str.upper()` (ASCII uppercasing, which covers every string compared
by this layer), implemented over the character list so it is
kernel-computable. -/
def pyStrUpper (s : String) : String :=
  String.mk (s.data.map Char.toUpper)

/-- `s.startswith(q)`, implemented over the character lists. -/
def strStartsWith (s q : String) : Bool :=
  q.data.isPrefixOf s.data

/-- `value.upper()`: succeeds only on strings; any other value raises
`AttributeError` (no `upper` attribute). -/
def pyUpper : PyVal → Except PyErr String
  | .vStr s => .ok (pyStrUpper s)
  | _ => .error .attributeError

/-- Python `value == "literal"`: true only for an equal string. -/
def pyEqStr (v : PyVal) (s : String) : Bool :=
  match v with
  | .vStr t => t == s
  | _ => false

/-- Join a list of strings with `", "` (the separator Python `repr` uses
inside dictionaries and lists). -/
def joinComma : List String → String
  | [] => ""
  | [x] => x
  | x :: xs => x ++ ", " ++ joinComma xs

mutual
/-- Python `repr` of a value (as used by `"{}".format(...)` on dicts). -/
def pyRepr : PyVal → String
  | .vStr s => "\x27" ++ s ++ "\x27"
  | .vBool b => if b then "True" else "False"
  | .vInt n => toString n
  | .vList l => "[" ++ joinComma (pyReprL l) ++ "]"
  | .vDict d => "\x7b" ++ joinComma (pyReprD d) ++ "\x7d"

/-- `repr` of each element of a Python list. -/
def pyReprL : List PyVal → List String
  | [] => []
  | v :: vs => pyRepr v :: pyReprL vs

/-- `repr` of each `key: value` entry of a Python dict. -/
def pyReprD : List (String × PyVal) → List String
  | [] => []
  | kv :: kvs => ("\x27" ++ kv.1 ++ "\x27: " ++ pyRepr kv.2) :: pyReprD kvs
end

/-- `needle` occurs contiguously inside `hay` (Python `in` on strings /
"the error names the key"). -/
def strContains (hay needle : String) : Prop :=
  ∃ pre post, hay.data = pre ++ needle.data ++ post

/-! ### Identifier quoting and table-name parsing

Python strings indexed by position (`identifier[0]`, `identifier[-1]`,
`split`, `strip`) are modelled as `List Char`. -/

/-- The backtick character (written via its code point, `0x60`). -/
def backquote : Char := Char.ofNat 96

/-- The double-quote character. -/
def dquote : Char := '"'

/-- Python `needle in hay` on strings: contiguous-subsequence test. -/
def containsSeq (hay needle : List Char) : Bool :=
  if needle.isPrefixOf hay then true
  else
    match hay with
    | [] => false
    | _ :: t => containsSeq t needle

/-- The characters of the literal `"ANSI_QUOTES"`. -/
def ansiToken : List Char :=
  ['A', 'N', 'S', 'I', '_', 'Q', 'U', 'O', 'T', 'E', 'S']

/-- `is_quoted_identifier(identifier, sql_mode)`.  Accessing
`identifier[0]` on an empty string raises `IndexError`. -/
def is_quoted_identifier (identifier : List Char) (sql_mode : List Char) :
    Except PyErr Bool :=
  match identifier with
  | [] => .error .indexError
  | c :: cs =>
    let last := ((c :: cs).getLast?).getD c
    if containsSeq sql_mode ansiToken then
      .ok ((c == backquote && last == backquote) ||
           (c == dquote && last == dquote))
    else
      .ok (c == backquote && last == backquote)

/-- `identifier.replace(q, qq)`: double every occurrence of the quote
character `q` (escape-by-doubling). -/
def replaceDoubled (q : Char) : List Char → List Char
  | [] => []
  | c :: cs =>
      if c == q then q :: q :: replaceDoubled q cs
      else c :: replaceDoubled q cs

/-- `quote_identifier(identifier, sql_mode)`. -/
def quote_identifier (identifier : List Char) (sql_mode : List Char) :
    List Char :=
  if identifier.length = 0 then [backquote, backquote]
  else
    match is_quoted_identifier identifier sql_mode with
    | .ok true => identifier
    | _ =>
      if containsSeq sql_mode ansiToken then
        dquote :: replaceDoubled dquote identifier ++ [dquote]
      else
        backquote :: replaceDoubled backquote identifier ++ [backquote]

/-- `table_name.split(delimiter, 1)`: split on the first occurrence of the
(non-empty) delimiter, yielding one part (no occurrence) or two parts. -/
def splitOnce (delimiter : List Char) : List Char → List (List Char)
  | [] => if delimiter.isPrefixOf [] then [[], []] else [[]]
  | c :: rest =>
      if delimiter.isPrefixOf (c :: rest) then
        [[], (c :: rest).drop delimiter.length]
      else
        match splitOnce delimiter rest with
        | [] => [[c]]
        | p :: ps => (c :: p) :: ps

/-- `s.strip(q)` for a single-character argument: remove every leading and
trailing occurrence of `q`. -/
def stripChar (q : Char) (s : List Char) : List Char :=
  ((s.dropWhile (· == q)).reverse.dropWhile (· == q)).reverse

/-- `parse_table_name(default_schema, table_name, sql_mode)`.  The source
compares `len(temp) is 1`; for CPython `len` results this interned-small-int
identity coincides with equality, and it is modelled as `= 1`. -/
def parse_table_name (default_schema table_name : List Char)
    (sql_mode : List Char) : List Char × List Char :=
  let quote := if containsSeq sql_mode ansiToken then dquote else backquote
  let delimiter := if table_name.contains quote then ['.', quote] else ['.']
  let temp := splitOnce delimiter table_name
  (if temp.length = 1 then default_schema
   else stripChar quote (temp.headD []),
   stripChar quote ((temp.getLast?).getD []))

/-! ### The expression-parser collaborator

`mysqlx.expr.ExprParser` is an external collaborator: this layer only
calls it and carries its results.  A parsed expression is opaque; its
only observable used here is its `str(...)` rendering (used by
`SelectStatement.get_sql` on the stored `having` expression).  Each
embedded call site takes the collaborator's answer for that call as an
explicit `Except Unit _` argument (`.error ()` = the parser raised
`ValueError`). -/

/-- An opaque parsed expression tree, carrying only its `str` rendering. -/
structure ExprNode where
  rendering : String
deriving DecidableEq, Repr

/-- The result of parsing a condition: the tree and the
placeholder-name-to-position map collected while parsing. -/
structure ParsedExpr where
  tree : ExprNode
  placeholderMap : List (String × Nat)
deriving DecidableEq, Repr

/-! ### FilterableStatement -/

/-- A value passed to `bind`: a JSON string, a `DbDoc` (modelled by its
JSON text serialization, its only observable used by `bind`), or any
other Python object. -/
inductive BindArg where
  | pstr (s : String)
  | pdoc (jsonText : String)
  | pother (v : PyVal)

/-- Inject a decoded JSON value into a `bind` argument (the values looped
over by `for key in res.keys(): self.bind(key, res[key])`). -/
def pyValToBindArg : PyVal → BindArg
  | .vStr s => .pstr s
  | v => .pother v

/-- The mutable state installed by `FilterableStatement.__init__`.
`_where` and `_where_expr` are absent until `where` assigns them, hence
`Option`. -/
structure FilterableState where
  binding_map : List (String × Nat)
  bindings : List (BindArg × BindArg)
  having : Option ExprNode
  grouping_str : String
  grouping : Option ExprNode
  limit_offset : Int
  limit_row_count : Int
  projection_str : String
  projection_expr : Option ExprNode
  sort_str : String
  sort_expr : Option ExprNode
  has_bindings : Bool
  has_limit : Bool
  has_group_by : Bool
  has_having : Bool
  has_projection : Bool
  has_sort : Bool
  has_where : Bool
  whereStr : Option String
  where_expr : Option ExprNode
  doc_based : Bool

/-- `FilterableStatement.__init__(target, doc_based, condition=None)`
with no condition argument. -/
def initFilterable (doc_based : Bool) : FilterableState :=
  { binding_map := []
    bindings := []
    having := none
    grouping_str := ""
    grouping := none
    limit_offset := 0
    limit_row_count := 0
    projection_str := ""
    projection_expr := none
    sort_str := ""
    sort_expr := none
    has_bindings := false
    has_limit := false
    has_group_by := false
    has_having := false
    has_projection := false
    has_sort := false
    has_where := false
    whereStr := none
    where_expr := none
    doc_based := doc_based }

/-- `FilterableStatement.where(condition)`.  The source sets `has_where`
and `_where` BEFORE attempting to parse; on a parse `ValueError` it
raises `ProgrammingError("Invalid condition")`, leaving those mutations
in place.  The pair returned is (raised error if any, state after the
call). -/
def FilterableState.whereCall (s : FilterableState) (condition : String)
    (parsed : Except Unit ParsedExpr) : Option PyErr × FilterableState :=
  let s1 := { s with has_where := true, whereStr := some condition }
  match parsed with
  | .error _ => (some (.programmingError "Invalid condition"), s1)
  | .ok pe =>
      (none, { s1 with where_expr := some pe.tree,
                       binding_map := pe.placeholderMap })

/-- `FilterableStatement.limit(row_count, offset=0)`. -/
def FilterableState.limitCall (s : FilterableState)
    (row_count offset : Int) : FilterableState :=
  { s with has_limit := true
           limit_row_count := row_count
           limit_offset := offset }

/-- `FilterableStatement.sort(*sort_clauses)` after `flexible_params`
flattening; `parse_order_spec` is a collaborator call, a `ValueError`
from it propagates after the flag and string are already set. -/
def FilterableState.sortCall (s : FilterableState)
    (sort_clauses : List String) (parsed : Except Unit ExprNode) :
    Option PyErr × FilterableState :=
  let s1 := { s with has_sort := true
                     sort_str := String.intercalate "," sort_clauses }
  match parsed with
  | .error _ => (some .valueError, s1)
  | .ok e => (none, { s1 with sort_expr := some e })

/-- `FilterableStatement._set_projection(*fields)` after
`flexible_params` flattening. -/
def FilterableState.set_projection (s : FilterableState)
    (fields : List String) (parsed : Except Unit ExprNode) :
    Option PyErr × FilterableState :=
  let s1 := { s with has_projection := true
                     projection_str := String.intercalate "," fields }
  match parsed with
  | .error _ => (some .valueError, s1)
  | .ok e => (none, { s1 with projection_expr := some e })

/-- Append the bindings produced by iterating a decoded JSON mapping
(`for key in res.keys(): self.bind(key, res[key])`; each inner call is
the two-argument form and also re-sets `has_bindings`). -/
def appendJsonBindings (s : FilterableState) (m : PyDict) :
    FilterableState :=
  { s with has_bindings := true
           bindings :=
             s.bindings ++ m.map (fun kv => (.pstr kv.1, pyValToBindArg kv.2)) }

/-- `FilterableStatement._bind_single(obj)` for a string argument:
`json.loads` (the decoder is a stdlib collaborator, its answer is the
`jsonLd` argument; `none` = the text does not decode). -/
def FilterableState.bindSingleStr (s : FilterableState) (text : String)
    (jsonLd : String → Option PyVal) : Option PyErr × FilterableState :=
  match jsonLd text with
  | some (.vDict m) => (none, appendJsonBindings s m)
  | some _ => (some (.programmingError "Invalid JSON string to bind"), s)
  | none => (some (.programmingError "Invalid JSON string to bind"), s)

/-- `FilterableStatement._bind_single(obj)`: a `DbDoc` is serialized and
re-bound as its JSON text; a string is decoded; anything else raises. -/
def FilterableState.bindSingle (s : FilterableState) (obj : BindArg)
    (jsonLd : String → Option PyVal) : Option PyErr × FilterableState :=
  match obj with
  | .pdoc text => FilterableState.bindSingleStr s text jsonLd
  | .pstr text => FilterableState.bindSingleStr s text jsonLd
  | .pother _ =>
      (some (.programmingError "Invalid JSON string or object to bind"), s)

/-- `FilterableStatement.bind(*args)`.  `has_bindings` is set first.
With one argument, `_bind_single`; with more than two, a
`ProgrammingError`; otherwise the two-argument append — which, for ZERO
arguments, evaluates `args[0]` and raises `IndexError`. -/
def FilterableState.bindCall (s : FilterableState) (args : List BindArg)
    (jsonLd : String → Option PyVal) : Option PyErr × FilterableState :=
  let s1 := { s with has_bindings := true }
  match args with
  | [a] => FilterableState.bindSingle s1 a jsonLd
  | [] => (some .indexError, s1)
  | [a, b] => (none, { s1 with bindings := s1.bindings ++ [(a, b)] })
  | _ => (some (.programmingError "Invalid number of arguments to bind"), s1)

/-! ### Write statement kinds and their execution contracts -/

/-- An accumulated update operation (`UpdateSpec`); its construction via
the expression parser is not needed by the claims, only its presence in
the statement's list. -/
structure UpdateSpecV where
  update_type : Nat
  source : String
  value : Option PyVal

/-- `ModifyStatement` state: filter criteria plus accumulated update
operations. -/
structure ModifyState where
  fs : FilterableState
  update_ops : List UpdateSpecV

/-- `UpdateStatement` state. -/
structure UpdateState where
  fs : FilterableState
  update_ops : List UpdateSpecV

/-- `RemoveStatement` state. -/
structure RemoveState where
  fs : FilterableState

/-- `DeleteStatement` state. -/
structure DeleteState where
  fs : FilterableState

/-- A `DbDoc` accumulated by `AddStatement` (opaque document value). -/
structure DbDocV where
  entries : PyDict

/-- `AddStatement` state (`WriteStatement._values` plus `ids`). -/
structure AddState where
  values : List DbDocV
  ids : List PyVal

/-- A call handed to the transport/connection collaborator; `execute()`
returning `.ok` of one of these models exactly one transport call, an
`.error` models a raise before any transport call. -/
inductive TransportCall where
  | updateModify (s : ModifyState)
  | updateTable (s : UpdateState)
  | deleteRemove (s : RemoveState)
  | deleteTable (s : DeleteState)
  | insertAdd (s : AddState)

/-- `ModifyStatement.execute()`: raises unless `has_where`, else exactly
one `connection.update(self)` transport call. -/
def ModifyStatement.execute (s : ModifyState) : Except PyErr TransportCall :=
  if !s.fs.has_where then
    .error (.programmingError "No condition was found for modify")
  else .ok (.updateModify s)

/-- `UpdateStatement.execute()`. -/
def UpdateStatement.execute (s : UpdateState) : Except PyErr TransportCall :=
  if !s.fs.has_where then
    .error (.programmingError "No condition was found for update")
  else .ok (.updateTable s)

/-- `RemoveStatement.execute()`. -/
def RemoveStatement.execute (s : RemoveState) : Except PyErr TransportCall :=
  if !s.fs.has_where then
    .error (.programmingError "No condition was found for remove")
  else .ok (.deleteRemove s)

/-- `DeleteStatement.execute()`. -/
def DeleteStatement.execute (s : DeleteState) : Except PyErr TransportCall :=
  if !s.fs.has_where then
    .error (.programmingError "No condition was found for delete")
  else .ok (.deleteTable s)

/-- Outcome of `AddStatement.execute()`: an empty `Result()` constructed
locally, or a delegated transport call. -/
inductive AddExecOutcome where
  | emptyResult
  | transport (c : TransportCall)

/-- `AddStatement.execute()`: zero accumulated values short-circuits to
an empty `Result()`; otherwise `connection.send_insert(self)`. -/
def AddStatement.execute (s : AddState) : AddExecOutcome :=
  if s.values.length = 0 then .emptyResult
  else .transport (.insertAdd s)

/-! ### Read statement kinds -/

/-- `ReadStatement` state: filter criteria plus the two lock flags
(both initialized `False`). -/
structure ReadState where
  fs : FilterableState
  lock_exclusive : Bool
  lock_shared : Bool

/-- `ReadStatement.__init__` (no condition argument). -/
def initRead (doc_based : Bool) : ReadState :=
  { fs := initFilterable doc_based
    lock_exclusive := false
    lock_shared := false }

/-- `ReadStatement.lock_shared()`. -/
def ReadState.lock_shared_call (s : ReadState) : ReadState :=
  { s with lock_exclusive := false, lock_shared := true }

/-- `ReadStatement.lock_exclusive()`. -/
def ReadState.lock_exclusive_call (s : ReadState) : ReadState :=
  { s with lock_exclusive := true, lock_shared := false }

/-- One call in a sequence of lock-mode mutator invocations. -/
inductive LockCall where
  | shared
  | exclusive
deriving DecidableEq, Repr

/-- Apply one lock mutator call. -/
def applyLockCall (s : ReadState) : LockCall → ReadState
  | .shared => s.lock_shared_call
  | .exclusive => s.lock_exclusive_call

/-- `SelectStatement` state: a read statement over a table, which also
carries `target.name` and `target.schema.name` (used by `get_sql`). -/
structure SelectState extends ReadState where
  table_name : String
  schema_name : String

/-- `SelectStatement.__init__(table, *fields)`: table mode, then
`_set_projection(*fields)` (whose projection parse is a collaborator
call). -/
def SelectStatement.init (table_name schema_name : String)
    (fields : List String) (projParsed : Except Unit ExprNode) :
    Option PyErr × SelectState :=
  let r := initRead false
  let (e, fs1) := FilterableState.set_projection r.fs fields projParsed
  (e, { fs := fs1
        lock_exclusive := r.lock_exclusive
        lock_shared := r.lock_shared
        table_name := table_name
        schema_name := schema_name })

/-- `where` on a `SelectStatement` (inherited from
`FilterableStatement`). -/
def SelectState.whereCall (s : SelectState) (condition : String)
    (parsed : Except Unit ParsedExpr) : Option PyErr × SelectState :=
  let (e, fs1) := FilterableState.whereCall s.fs condition parsed
  (e, { s with fs := fs1 })

/-- `SelectStatement.order_by(*clauses)`: delegates to `sort`. -/
def SelectState.order_by (s : SelectState) (clauses : List String)
    (parsed : Except Unit ExprNode) : Option PyErr × SelectState :=
  let (e, fs1) := FilterableState.sortCall s.fs clauses parsed
  (e, { s with fs := fs1 })

/-- `limit` on a `SelectStatement`. -/
def SelectState.limitCall (s : SelectState) (row_count offset : Int) :
    SelectState :=
  { s with fs := FilterableState.limitCall s.fs row_count offset }

/-- `SelectStatement.get_sql()`, clause strings computed exactly as the
source does (`str(self._having)` is the stored expression's rendering). -/
def SelectState.get_sql (s : SelectState) : String :=
  let whereC :=
    if s.fs.has_where then " WHERE " ++ (s.fs.whereStr.getD "") else ""
  let group_by :=
    if s.fs.has_group_by then " GROUP BY " ++ s.fs.grouping_str else ""
  let havingC :=
    if s.fs.has_having then
      " HAVING " ++ (((s.fs.having).map ExprNode.rendering).getD "") else ""
  let order_by :=
    if s.fs.has_sort then " ORDER BY " ++ s.fs.sort_str else ""
  let limitC :=
    if s.fs.has_limit then
      " LIMIT " ++ toString s.fs.limit_row_count ++
      " OFFSET " ++ toString s.fs.limit_offset
    else ""
  "SELECT " ++ (if s.fs.projection_str == "" then "*" else s.fs.projection_str) ++
    " FROM " ++ s.schema_name ++ "." ++ s.table_name ++
    whereC ++ group_by ++ havingC ++ order_by ++ limitC

/-- Modelled from the spec: the SQL-generation template
`SELECT <projection-text|*> FROM <schema>.<table>[ WHERE <condition-text>]
[ GROUP BY <grouping-text>][ HAVING <having-text>][ ORDER BY <sort-text>]
[ LIMIT <rowCount> OFFSET <offset>]`, each bracketed clause included
exactly when its has-X flag is set, in that fixed order. -/
def specSelectSql (s : SelectState) : String :=
  "SELECT " ++ (if s.fs.projection_str = "" then "*" else s.fs.projection_str) ++
  " FROM " ++ s.schema_name ++ "." ++ s.table_name ++
  (if s.fs.has_where then " WHERE " ++ (s.fs.whereStr.getD "") else "") ++
  (if s.fs.has_group_by then " GROUP BY " ++ s.fs.grouping_str else "") ++
  (if s.fs.has_having then
     " HAVING " ++ (((s.fs.having).map ExprNode.rendering).getD "") else "") ++
  (if s.fs.has_sort then " ORDER BY " ++ s.fs.sort_str else "") ++
  (if s.fs.has_limit then
     " LIMIT " ++ toString s.fs.limit_row_count ++
     " OFFSET " ++ toString s.fs.limit_offset
   else "")

/-! ### CreateCollectionIndexStatement: value-level model

The constructor deep-copies the caller's descriptor, so the observable
result of `execute()` is a function of the descriptor VALUE; this model
works on that value.  (The mutation/aliasing discipline of the copy is
modelled separately with an explicit heap below.)  The index-name parse
(`ExprParser(name).expr()`, checked to be a plain `IDENT` expression) is
a collaborator call whose answer is the `nameIsIdent` argument:
`.error ()` = the parser raised `ValueError`/`AttributeError`, `.ok b` =
it returned a message whose type is (`b` =) `IDENT` or not. -/

/-- `ERR_INVALID_INDEX_NAME.format(index_name)` (`None` formats as
`"None"`; a string formats as itself). -/
def errInvalidIndexName (name : Option String) : String :=
  "The given index name \"" ++
    (match name with | none => "None" | some s => s) ++ "\" is not valid"

/-- `CreateCollectionIndexStatement` state after `__init__`: the private
deep copy with `"fields"` already popped (`self._fields_desc`,
defaulting to `[]`), and the rest of the copy (`self._index_desc`). -/
structure CreateIndexState where
  index_name : Option String
  index_desc : PyDict
  fields_desc : PyVal

/-- `CreateCollectionIndexStatement.__init__(collection, index_name,
index_desc)` on the descriptor value. -/
def CreateCollectionIndexStatement.init (index_name : Option String)
    (index_desc : PyDict) : CreateIndexState :=
  let (fv, rest) := dictPop index_desc "fields"
  { index_name := index_name
    index_desc := rest
    fields_desc := fv.getD (.vList []) }

/-- One iteration of the constraint loop over `field_desc`, including the
surrounding `try/except KeyError` translation.  Returns the constraint
(an ordered dict `member`/`type`/`required`[/`collation`/`options`/
`srid`]) and the residual field dict after the pops. -/
def processFieldDesc (argsType : PyVal) (fd0 : PyVal) :
    Except PyErr (PyDict × PyDict) :=
  match fd0 with
  | .vDict d0 =>
    match dictPop d0 "field" with
    | (none, d1) =>
        .error (.programmingError
          ("Required inner member \x27field\x27 not found in constraint: " ++
           pyRepr (.vDict d1)))
    | (some memberV, d1) =>
      match dictPop d1 "type" with
      | (none, d2) =>
          .error (.programmingError
            ("Required inner member \x27type\x27 not found in constraint: " ++
             pyRepr (.vDict d2)))
      | (some typeV, d2) =>
        let (reqV, d3) := dictPop d2 "required"
        let requiredV := reqV.getD (.vBool false)
        match pyUpper argsType with
        | .error e => .error e
        | .ok argsTypeU =>
          if argsTypeU == "SPATIAL" && !pyTruthy requiredV then
            .error (.programmingError
              ("Field member \"required\" must be set to \"True\" when " ++
               "index type is set to \"SPATIAL\""))
          else if argsTypeU == "INDEX" && pyEqStr typeV "GEOJSON" then
            .error (.programmingError
              ("Index \"type\" must be set to \"SPATIAL\" when field " ++
               "type is set to \"GEOJSON\""))
          else
            match
              (if (dictLookup d3 "collation").isSome then
                match pyUpper typeV with
                | .error e => .error e
                | .ok typeU =>
                  if !(strStartsWith typeU "TEXT") then
                    .error (.programmingError
                      ("The \"collation\" member can only be used when " ++
                       "field  type is set to \"GEOJSON\""))
                  else
                    let (cv, d4) := dictPop d3 "collation"
                    .ok ([("collation", cv.getD (.vBool false))], d4)
              else .ok ([], d3) : Except PyErr (PyDict × PyDict))
            with
            | .error e => .error e
            | .ok (collationPart, d4) =>
              match
                (if (dictLookup d4 "options").isSome then
                  match pyUpper typeV with
                  | .error e => .error e
                  | .ok typeU =>
                    if typeU != "GEOJSON" then
                      .error (.programmingError
                        ("The \"options\" member can only be used when " ++
                         "index type is set to \"GEOJSON\""))
                    else
                      let (ov, d5) := dictPop d4 "options"
                      .ok ([("options", ov.getD (.vBool false))], d5)
                else .ok ([], d4) : Except PyErr (PyDict × PyDict))
              with
              | .error e => .error e
              | .ok (optionsPart, d5) =>
                match
                  (if (dictLookup d5 "srid").isSome then
                    match pyUpper typeV with
                    | .error e => .error e
                    | .ok typeU =>
                      if typeU != "GEOJSON" then
                        .error (.programmingError
                          ("The \"srid\" member can only be used when " ++
                           "index type is set to \"GEOJSON\""))
                      else
                        let (sv, d6) := dictPop d5 "srid"
                        .ok ([("srid", sv.getD (.vBool false))], d6)
                  else .ok ([], d5) : Except PyErr (PyDict × PyDict))
                with
                | .error e => .error e
                | .ok (sridPart, d6) =>
                  .ok (("member", memberV) :: ("type", typeV) ::
                        ("required", requiredV) ::
                        (collationPart ++ optionsPart ++ sridPart), d6)
  | _ => .error .attributeError

/-- The first `for field_desc in self._fields_desc` loop: builds the
`constraint` list in input order, or stops at the first raise; also
returns the residual (popped-out) field dicts for the second loop. -/
def processFields (argsType : PyVal) :
    List PyVal → Except PyErr (List PyDict × List PyVal)
  | [] => .ok ([], [])
  | fd :: rest =>
    match processFieldDesc argsType fd with
    | .error e => .error e
    | .ok (c, residual) =>
      match processFields argsType rest with
      | .error e => .error e
      | .ok (cs, residuals) => .ok (c :: cs, .vDict residual :: residuals)

/-- The second `for field_desc in self._fields_desc` loop: any field dict
left non-empty after the recognized pops is an error. -/
def checkResiduals : List PyVal → Except PyErr Unit
  | [] => .ok ()
  | r :: rest =>
      if pyTruthy r then
        .error (.programmingError ("Unidentified inner fields:" ++ pyRepr r))
      else checkResiduals rest

/-- The `args` dict handed to
`connection.execute_nonquery("mysqlx", "create_collection_index", True,
args)` (a dict with fixed keys, modelled as a structure in insertion
order `name, collection, schema, type, unique, constraint`). -/
structure IndexArgs where
  name : String
  collection : String
  schema : String
  type : PyVal
  unique : PyVal
  constraint : List PyDict

/-- The administrative transport call made on success. -/
structure AdminCall where
  namespaceArg : String
  command : String
  mustSucceed : Bool
  args : IndexArgs

/-- `CreateCollectionIndexStatement.execute()`.  `collectionName` and
`schemaName` are `target.name` and `target.schema.name`. -/
def CreateCollectionIndexStatement.execute (st : CreateIndexState)
    (collectionName schemaName : String) (nameIsIdent : Except Unit Bool) :
    Except PyErr AdminCall :=
  match st.index_name with
  | none => .error (.programmingError (errInvalidIndexName none))
  | some nm =>
    match nameIsIdent with
    | .error _ => .error (.programmingError (errInvalidIndexName (some nm)))
    | .ok isIdent =>
      if !isIdent then
        .error (.programmingError (errInvalidIndexName (some nm)))
      else if !pyTruthy st.fields_desc then
        .error (.programmingError
          ("Required member \"fields\" not found in the given index " ++
           "description: " ++ pyRepr (.vDict st.index_desc)))
      else
        match st.fields_desc with
        | .vList fieldsList =>
          let (tv, desc1) := dictPop st.index_desc "type"
          let argsType := tv.getD (.vStr "INDEX")
          let (uv, desc2) := dictPop desc1 "unique"
          let argsUnique := uv.getD (.vBool false)
          if pyTruthy argsUnique then
            .error (.notSupportedError "Unique indexes are not supported.")
          else if !desc2.isEmpty then
            .error (.programmingError
              ("Unidentified fields: " ++ pyRepr (.vDict desc2)))
          else
            match processFields argsType fieldsList with
            | .error e => .error e
            | .ok (constraints, residuals) =>
              match checkResiduals residuals with
              | .error e => .error e
              | .ok _ =>
                .ok { namespaceArg := "mysqlx"
                      command := "create_collection_index"
                      mustSucceed := true
                      args := { name := nm
                                collection := collectionName
                                schema := schemaName
                                type := argsType
                                unique := argsUnique
                                constraint := constraints } }
        | _ =>
          .error (.programmingError
            "Required member \"fields\" must contain a list.")

/-! ### CreateCollectionIndexStatement: heap model for the deep copy

To state the frame property (the caller's descriptor objects are never
mutated) the dictionaries involved are given explicit identities: a heap
maps addresses to dictionary objects.  A dictionary entry holds either a
plain value or a Python list of references to other dictionaries (the
shape `copy.deepcopy` must duplicate: the descriptor's `"fields"` list
of field dictionaries).  `heapSet` models in-place mutation; fresh
addresses are allocated at `next`. -/

/-- An entry value inside a heap dictionary: a plain value, or a list of
references to other heap dictionaries. -/
inductive HVal where
  | scalar (v : PyVal)
  | drefs (addrs : List Nat)

/-- A heap dictionary object. -/
abbrev HDict := List (String × HVal)

/-- The heap: an allocation bound and the allocated cells (later
`heapSet` entries shadow earlier ones). -/
structure Heap where
  next : Nat
  cells : List (Nat × HDict)

/-- Read the dictionary object at an address. -/
def heapGet (h : Heap) (a : Nat) : Option HDict :=
  (h.cells.find? (fun c => c.1 == a)).map (·.2)

/-- In-place overwrite of the dictionary object at an address. -/
def heapSet (h : Heap) (a : Nat) (d : HDict) : Heap :=
  { next := h.next, cells := (a, d) :: h.cells }

/-- Allocate a fresh dictionary object, returning its address. -/
def heapAlloc (h : Heap) (d : HDict) : Heap × Nat :=
  ({ next := h.next + 1, cells := (h.next, d) :: h.cells }, h.next)

/-- Lookup in a heap dictionary. -/
def hdictLookup (d : HDict) (k : String) : Option HVal :=
  (d.find? (fun kv => kv.1 == k)).map (·.2)

/-- Remove the entry for a key from a heap dictionary. -/
def hdictErase (d : HDict) (k : String) : HDict :=
  d.eraseP (fun kv => kv.1 == k)

/-- `dict.pop(k)` on the heap object at `a` (mutating when present). -/
def heapDictPop (h : Heap) (a : Nat) (k : String) :
    Heap × Option HVal :=
  let d := (heapGet h a).getD []
  match hdictLookup d k with
  | some v => (heapSet h a (hdictErase d k), some v)
  | none => (h, none)

/-- `copy.deepcopy` of the referenced field dictionaries: allocate a
fresh copy of every dictionary the list points to. -/
def copyAddrs (h : Heap) : List Nat → Heap × List Nat
  | [] => (h, [])
  | a :: rest =>
    let d := (heapGet h a).getD []
    let (h1, a1) := heapAlloc h d
    let (h2, rest1) := copyAddrs h1 rest
    (h2, a1 :: rest1)

/-- `copy.deepcopy` of the entries of the top descriptor dictionary:
scalars are copied by value, reference lists get freshly copied
targets. -/
def copyEntries (h : Heap) : HDict → Heap × HDict
  | [] => (h, [])
  | (k, .scalar v) :: rest =>
    let (h1, rest1) := copyEntries h rest
    (h1, (k, .scalar v) :: rest1)
  | (k, .drefs addrs) :: rest =>
    let (h1, addrs1) := copyAddrs h addrs
    let (h2, rest1) := copyEntries h1 rest
    (h2, (k, .drefs addrs1) :: rest1)

/-- The statement's private references after `__init__`. -/
structure CreateIndexHeapState where
  index_name : Option String
  descAddr : Nat
  fields_desc : HVal

/-- `__init__` in the heap model: deep-copy the descriptor at `a`, then
`self._fields_desc = self._index_desc.pop("fields", [])` (a mutation of
the private copy only). -/
def CreateIndexHeapState.init (h : Heap) (index_name : Option String)
    (a : Nat) : Heap × CreateIndexHeapState :=
  let td := (heapGet h a).getD []
  let (h1, td1) := copyEntries h td
  let (h2, topA) := heapAlloc h1 td1
  let (h3, fv) := heapDictPop h2 topA "fields"
  (h3, { index_name := index_name
         descAddr := topA
         fields_desc := fv.getD (.drefs []) })

/-- Truthiness of a heap value (`if not self._fields_desc`). -/
def hvalTruthy : HVal → Bool
  | .scalar v => pyTruthy v
  | .drefs l => !l.isEmpty

/-- `value.upper()` on a heap value. -/
def hvalUpper : HVal → Except PyErr String
  | .scalar v => pyUpper v
  | .drefs _ => .error .attributeError

/-- `value == "literal"` on a heap value. -/
def hvalEqStr (v : HVal) (s : String) : Bool :=
  match v with
  | .scalar v => pyEqStr v s
  | .drefs _ => false

/-- One iteration of the constraint loop in the heap model, as a pure
function of the current field-dict contents: the verdict and the dict
contents after the iteration's pops (also on the error paths, since the
pops already performed survive a raise). -/
def processFieldCell (argsType : HVal) (d0 : HDict) :
    Except PyErr HDict × HDict :=
  match hdictLookup d0 "field" with
  | none => (.error (.programmingError "required inner member not found"), d0)
  | some memberV =>
    let d1 := hdictErase d0 "field"
    match hdictLookup d1 "type" with
    | none =>
        (.error (.programmingError "required inner member not found"), d1)
    | some typeV =>
      let d2 := hdictErase d1 "type"
      let requiredV := (hdictLookup d2 "required").getD (.scalar (.vBool false))
      let d3 := hdictErase d2 "required"
      match hvalUpper argsType with
      | .error e => (.error e, d3)
      | .ok argsTypeU =>
        if argsTypeU == "SPATIAL" && !hvalTruthy requiredV then
          (.error (.programmingError "required must be True for SPATIAL"), d3)
        else if argsTypeU == "INDEX" && hvalEqStr typeV "GEOJSON" then
          (.error (.programmingError "GEOJSON needs SPATIAL"), d3)
        else
          match
            (if (hdictLookup d3 "collation").isSome then
              match hvalUpper typeV with
              | .error e => (.error e, d3)
              | .ok typeU =>
                if !(strStartsWith typeU "TEXT") then
                  (.error (.programmingError "collation needs TEXT"), d3)
                else
                  (.ok [("collation", (hdictLookup d3 "collation").getD
                          (.scalar (.vBool false)))],
                   hdictErase d3 "collation")
            else (.ok [], d3) : Except PyErr HDict × HDict)
          with
          | (.error e, d4) => (.error e, d4)
          | (.ok collationPart, d4) =>
            match
              (if (hdictLookup d4 "options").isSome then
                match hvalUpper typeV with
                | .error e => (.error e, d4)
                | .ok typeU =>
                  if typeU != "GEOJSON" then
                    (.error (.programmingError "options needs GEOJSON"), d4)
                  else
                    (.ok [("options", (hdictLookup d4 "options").getD
                            (.scalar (.vBool false)))],
                     hdictErase d4 "options")
              else (.ok [], d4) : Except PyErr HDict × HDict)
            with
            | (.error e, d5) => (.error e, d5)
            | (.ok optionsPart, d5) =>
              match
                (if (hdictLookup d5 "srid").isSome then
                  match hvalUpper typeV with
                  | .error e => (.error e, d5)
                  | .ok typeU =>
                    if typeU != "GEOJSON" then
                      (.error (.programmingError "srid needs GEOJSON"), d5)
                    else
                      (.ok [("srid", (hdictLookup d5 "srid").getD
                              (.scalar (.vBool false)))],
                       hdictErase d5 "srid")
                else (.ok [], d5) : Except PyErr HDict × HDict)
              with
              | (.error e, d6) => (.error e, d6)
              | (.ok sridPart, d6) =>
                (.ok (("member", memberV) :: ("type", typeV) ::
                       ("required", requiredV) ::
                       (collationPart ++ optionsPart ++ sridPart)), d6)

/-- The first constraint loop in the heap model: each iteration reads the
field dict at its address, performs its pops (written back in place) and
either contributes a constraint or stops the loop with its raise. -/
def processFieldsHeap (argsType : HVal) :
    Heap → List Nat → Heap × Except PyErr (List HDict)
  | h, [] => (h, .ok [])
  | h, a :: rest =>
    let d := (heapGet h a).getD []
    let (res, d1) := processFieldCell argsType d
    let h1 := heapSet h a d1
    match res with
    | .error e => (h1, .error e)
    | .ok c =>
      match processFieldsHeap argsType h1 rest with
      | (h2, .error e) => (h2, .error e)
      | (h2, .ok cs) => (h2, .ok (c :: cs))

/-- The second loop in the heap model (reads only). -/
def checkResidualsHeap (h : Heap) : List Nat → Except PyErr Unit
  | [] => .ok ()
  | a :: rest =>
      if !((heapGet h a).getD []).isEmpty then
        .error (.programmingError "Unidentified inner fields")
      else checkResidualsHeap h rest

/-- `execute()` in the heap model.  Error messages are abbreviated here
(they are the value-level model's concern); the heap threading follows
the source's pops exactly. -/
def CreateIndexHeapState.execute (h : Heap) (st : CreateIndexHeapState)
    (nameIsIdent : Except Unit Bool) :
    Heap × Except PyErr (List HDict) :=
  match st.index_name with
  | none => (h, .error (.programmingError (errInvalidIndexName none)))
  | some nm =>
    match nameIsIdent with
    | .error _ =>
        (h, .error (.programmingError (errInvalidIndexName (some nm))))
    | .ok isIdent =>
      if !isIdent then
        (h, .error (.programmingError (errInvalidIndexName (some nm))))
      else if !hvalTruthy st.fields_desc then
        (h, .error (.programmingError "Required member fields not found"))
      else
        match st.fields_desc with
        | .drefs fieldAddrs =>
          let (h1, tv) := heapDictPop h st.descAddr "type"
          let argsType := tv.getD (.scalar (.vStr "INDEX"))
          let (h2, uv) := heapDictPop h1 st.descAddr "unique"
          let argsUnique := uv.getD (.scalar (.vBool false))
          if hvalTruthy argsUnique then
            (h2, .error (.notSupportedError "Unique indexes are not supported."))
          else if !((heapGet h2 st.descAddr).getD []).isEmpty then
            (h2, .error (.programmingError "Unidentified fields"))
          else
            match processFieldsHeap argsType h2 fieldAddrs with
            | (h3, .error e) => (h3, .error e)
            | (h3, .ok constraints) =>
              match checkResidualsHeap h3 fieldAddrs with
              | .error e => (h3, .error e)
              | .ok _ => (h3, .ok constraints)
        | .scalar sv =>
          -- a scalar Python list would enter the loop and fail on the
          -- first element's `pop`; any other scalar fails `isinstance`
          match sv with
          | .vList _ => (h, .error .attributeError)
          | _ =>
            (h, .error (.programmingError
              "Required member \"fields\" must contain a list."))

/-! ### Concrete instances and auxiliary predicates used by the theorems -/

/-- A well-formed SPATIAL/GEOJSON field descriptor
(`{"field": fv, "type": "GEOJSON", "required": True}`). -/
def mkGeoField (fv : PyVal) : PyVal :=
  .vDict [("field", fv), ("type", .vStr "GEOJSON"), ("required", .vBool true)]

/-- The constraint `execute()` builds for `mkGeoField fv`. -/
def mkGeoConstraint (fv : PyVal) : PyDict :=
  [("member", fv), ("type", .vStr "GEOJSON"), ("required", .vBool true)]

/-- A field entry of the descriptor's `fields` list that is a
dictionary whose `type` member, when present, is a string — the shape
under which the constraint loop can only raise `ProgrammingError`
(a non-dict entry or a non-string type would raise `AttributeError`
from `.pop`/`.upper()` instead). -/
def FieldTypeIsStr (fd : PyVal) : Prop :=
  ∃ d, fd = PyVal.vDict d ∧
    ∀ t, dictLookup d "type" = some t → ∃ s, t = PyVal.vStr s

/-- A concrete `json.loads` collaborator answer used by the `bind`
evaluations: one JSON-object text decoding to a two-entry mapping, one
JSON-array text decoding to a (non-mapping) list, everything else
failing to decode. -/
def jsonOracle : String → Option PyVal := fun t =>
  if t == "\x7b\"a\": 1, \"b\": 2\x7d" then
    some (.vDict [("a", .vInt 1), ("b", .vInt 2)])
  else if t == "[1, 2]" then some (.vList [.vInt 1, .vInt 2])
  else none

/-- `SelectStatement(table="t", schema="s").where("a>1").order_by("a")
.limit(10, 5)`, with each collaborator parse succeeding. -/
def selectExampleState : SelectState :=
  ((((SelectStatement.init "t" "s" [] (.ok ⟨""⟩)).2.whereCall "a>1"
      (.ok ⟨⟨"(a > 1)"⟩, []⟩)).2.order_by ["a"]
      (.ok ⟨"a ASC"⟩)).2.limitCall 10 5)

/-- Heap `h'` extends heap `h` without touching addresses below `n`:
the allocation bound stays at least `n` and every cell below `n` reads
the same. -/
def heapExtends (n : Nat) (h h' : Heap) : Prop :=
  n ≤ h'.next ∧ ∀ b, b < n → heapGet h' b = heapGet h b

/-- The caller-side heap used to evaluate the frame property: a
descriptor dict at address `0` whose `"fields"` list references the
field dict at address `1`. -/
def callerHeap : Heap :=
  { next := 2
    cells := [(0, [("fields", .drefs [1]),
                   ("type", .scalar (.vStr "SPATIAL"))]),
              (1, [("field", .scalar (.vStr "$.a")),
                   ("type", .scalar (.vStr "GEOJSON")),
                   ("required", .scalar (.vBool true))])] }

/-! ## Theorems -/

/-- C1: for every ModifyStatement, UpdateStatement, RemoveStatement and
DeleteStatement, in every builder state whose has-filter flag is unset,
`execute()` fails with the "no condition" validation error (and hence
makes no transport call), for all inputs. -/
theorem mandatory_filter_no_condition :
    (∀ s : ModifyState, s.fs.has_where = false →
      ModifyStatement.execute s =
        .error (.programmingError "No condition was found for modify")) ∧
    (∀ s : UpdateState, s.fs.has_where = false →
      UpdateStatement.execute s =
        .error (.programmingError "No condition was found for update")) ∧
    (∀ s : RemoveState, s.fs.has_where = false →
      RemoveStatement.execute s =
        .error (.programmingError "No condition was found for remove")) ∧
    (∀ s : DeleteState, s.fs.has_where = false →
      DeleteStatement.execute s =
        .error (.programmingError "No condition was found for delete")) := by
  refine ⟨fun s h => ?_, fun s h => ?_, fun s h => ?_, fun s h => ?_⟩ <;>
    simp [ModifyStatement.execute, UpdateStatement.execute,
          RemoveStatement.execute, DeleteStatement.execute, h]

/-- Witness for C1 at freshly initialized statements. -/
theorem mandatory_filter_no_condition_witness :
    ((initFilterable true).has_where = false) ∧
    ModifyStatement.execute { fs := initFilterable true, update_ops := [] } =
      .error (.programmingError "No condition was found for modify") ∧
    UpdateStatement.execute { fs := initFilterable false, update_ops := [] } =
      .error (.programmingError "No condition was found for update") ∧
    RemoveStatement.execute { fs := initFilterable true } =
      .error (.programmingError "No condition was found for remove") ∧
    DeleteStatement.execute { fs := initFilterable false } =
      .error (.programmingError "No condition was found for delete") :=
  ⟨rfl,
   mandatory_filter_no_condition.1 _ rfl,
   mandatory_filter_no_condition.2.1 _ rfl,
   mandatory_filter_no_condition.2.2.1 _ rfl,
   mandatory_filter_no_condition.2.2.2 _ rfl⟩

/-- After any lock-mode mutator call, at most one lock flag is set. -/
theorem applyLockCall_not_both (s : ReadState) (c : LockCall) :
    ¬((applyLockCall s c).lock_shared = true ∧
      (applyLockCall s c).lock_exclusive = true) := by
  cases c <;>
    simp [applyLockCall, ReadState.lock_shared_call,
          ReadState.lock_exclusive_call]

/-- Lock exclusivity is preserved by any sequence of lock calls. -/
theorem foldl_lock_not_both (calls : List LockCall) (s : ReadState)
    (h : ¬(s.lock_shared = true ∧ s.lock_exclusive = true)) :
    ¬((calls.foldl applyLockCall s).lock_shared = true ∧
      (calls.foldl applyLockCall s).lock_exclusive = true) := by
  induction calls generalizing s with
  | nil => exact h
  | cons c cs ih => exact ih (applyLockCall s c) (applyLockCall_not_both s c)

/-- C5: for every ReadStatement and every sequence of `lock_shared()` /
`lock_exclusive()` calls, at most one lock flag is ever active; and
`lock_shared()` then `lock_exclusive()` leaves exactly the exclusive
flag set, `lock_exclusive()` then `lock_shared()` leaves exactly the
shared flag set. -/
theorem read_lock_exclusivity :
    (∀ (doc_based : Bool) (calls : List LockCall),
      ¬((calls.foldl applyLockCall (initRead doc_based)).lock_shared = true ∧
        (calls.foldl applyLockCall (initRead doc_based)).lock_exclusive
          = true)) ∧
    (∀ s : ReadState,
      (s.lock_shared_call.lock_exclusive_call).lock_exclusive = true ∧
      (s.lock_shared_call.lock_exclusive_call).lock_shared = false) ∧
    (∀ s : ReadState,
      (s.lock_exclusive_call.lock_shared_call).lock_shared = true ∧
      (s.lock_exclusive_call.lock_shared_call).lock_exclusive = false) := by
  refine ⟨fun doc_based calls => ?_, fun s => ⟨rfl, rfl⟩, fun s => ⟨rfl, rfl⟩⟩
  exact foldl_lock_not_both calls (initRead doc_based) (by simp [initRead])

/-- C8: `AddStatement.execute()` with zero accumulated documents returns
an empty `Result` without any transport call; with one or more it
delegates to the transport insert. -/
theorem add_execute_empty_no_transport :
    (∀ s : AddState, s.values = [] →
      AddStatement.execute s = .emptyResult) ∧
    (∀ s : AddState, s.values ≠ [] →
      AddStatement.execute s = .transport (.insertAdd s)) := by
  constructor <;> intro s h <;>
    simp [AddStatement.execute, h, List.length_eq_zero]

/-- Witness for C8 at a zero-document and a one-document statement. -/
theorem add_execute_empty_no_transport_witness :
    AddStatement.execute { values := [], ids := [] } = .emptyResult ∧
    AddStatement.execute { values := [⟨[]⟩], ids := [] } =
      .transport (.insertAdd { values := [⟨[]⟩], ids := [] }) :=
  ⟨add_execute_empty_no_transport.1 _ rfl,
   add_execute_empty_no_transport.2 _ (List.cons_ne_nil _ _)⟩

/-- C9: `parse_table_name` keeps the default schema when no separator is
found, and splits a backtick-quoted qualified name into the
quote-stripped pair: `parse_table_name("s", "t") = ("s", "t")` and
``parse_table_name("s", "`db`.`tbl`") = ("db", "tbl")``. -/
theorem parse_table_name_splits :
    parse_table_name ['s'] ['t'] [] = (['s'], ['t']) ∧
    parse_table_name ['s']
        [backquote, 'd', 'b', backquote, '.',
         backquote, 't', 'b', 'l', backquote] [] =
      (['d', 'b'], ['t', 'b', 'l']) := by
  exact ⟨rfl, rfl⟩

/-- C3 counterexample: on a failing parse, `where` raises the
"Invalid condition" error but the has-filter flag HAS been set by the
failed call (it is assigned before parsing), so a subsequent destructive
`execute()` proceeds to the transport call instead of failing with the
"no condition" error — refuting the claim at this concrete input. -/
theorem where_failure_cex :
    (FilterableState.whereCall (initFilterable true) "@bad@" (.error ())).1 =
      some (.programmingError "Invalid condition") ∧
    (FilterableState.whereCall (initFilterable true) "@bad@"
        (.error ())).2.has_where = true ∧
    ModifyStatement.execute
        { fs := (FilterableState.whereCall (initFilterable true) "@bad@"
                  (.error ())).2,
          update_ops := [] } =
      .ok (.updateModify
        { fs := (FilterableState.whereCall (initFilterable true) "@bad@"
                  (.error ())).2,
          update_ops := [] }) :=
  ⟨rfl, rfl, rfl⟩

/-- C3 (amended): for every FilterableStatement and condition text whose
parse fails, `where` fails with the "Invalid condition" validation
error, but the has-filter flag and the raw condition are set before the
parse and remain set after the failure, so a subsequent destructive
`execute()` proceeds to the transport call rather than failing with the
"no condition" error. -/
theorem where_failure_leaves_flag_set (s : FilterableState) (cond : String) :
    (s.whereCall cond (.error ())).1 =
      some (.programmingError "Invalid condition") ∧
    (s.whereCall cond (.error ())).2.has_where = true ∧
    (s.whereCall cond (.error ())).2.whereStr = some cond ∧
    ∀ ops, ModifyStatement.execute
        { fs := (s.whereCall cond (.error ())).2, update_ops := ops } =
      .ok (.updateModify
        { fs := (s.whereCall cond (.error ())).2, update_ops := ops }) := by
  refine ⟨rfl, rfl, rfl, fun ops => ?_⟩
  simp [ModifyStatement.execute, FilterableState.whereCall]

/-- C6: evaluation of every `bind` call shape.  The two-argument form
registers exactly one binding; a JSON-object text (and a document value,
via its serialization) registers one binding per decoded pair; a
non-mapping JSON text fails with the "Invalid JSON string to bind"
validation error; three arguments fail with the arity validation error;
but ZERO arguments raise `IndexError` (from `args[0]` in the
two-argument branch), not the validation error the claim (and the
method's own docstring) promise. -/
theorem bind_call_shapes :
    FilterableState.bindCall (initFilterable true)
        [.pstr "x", .pother (.vInt 1)] jsonOracle =
      (none, { initFilterable true with
                 has_bindings := true
                 bindings := [(.pstr "x", .pother (.vInt 1))] }) ∧
    FilterableState.bindCall (initFilterable true)
        [.pstr "\x7b\"a\": 1, \"b\": 2\x7d"] jsonOracle =
      (none, { initFilterable true with
                 has_bindings := true
                 bindings := [(.pstr "a", .pother (.vInt 1)),
                              (.pstr "b", .pother (.vInt 2))] }) ∧
    FilterableState.bindCall (initFilterable true)
        [.pdoc "\x7b\"a\": 1, \"b\": 2\x7d"] jsonOracle =
      (none, { initFilterable true with
                 has_bindings := true
                 bindings := [(.pstr "a", .pother (.vInt 1)),
                              (.pstr "b", .pother (.vInt 2))] }) ∧
    FilterableState.bindCall (initFilterable true) [.pstr "[1, 2]"]
        jsonOracle =
      (some (.programmingError "Invalid JSON string to bind"),
       { initFilterable true with has_bindings := true }) ∧
    FilterableState.bindCall (initFilterable true)
        [.pstr "a", .pother (.vInt 1), .pother (.vInt 2)] jsonOracle =
      (some (.programmingError "Invalid number of arguments to bind"),
       { initFilterable true with has_bindings := true }) ∧
    FilterableState.bindCall (initFilterable true) [] jsonOracle =
      (some .indexError,
       { initFilterable true with has_bindings := true }) :=
  ⟨rfl, rfl, rfl, rfl, rfl, rfl⟩

/-- C4: `get_sql` realizes exactly the spec's clause template (each
clause present iff its has-X flag is set, in the fixed order), and the
chained example produces the expected SQL text. -/
theorem select_get_sql_spec :
    (∀ s : SelectState, s.get_sql = specSelectSql s) ∧
    selectExampleState.get_sql =
      "SELECT * FROM s.t WHERE a>1 ORDER BY a LIMIT 10 OFFSET 5" := by
  constructor
  · intro s
    simp [SelectState.get_sql, specSelectSql]
  · rfl

/-- The last character of a quote-wrapped identifier is the quote. -/
theorem getLast?_wrap (q : Char) (l : List Char) :
    (q :: (l ++ [q])).getLast? = some q := by
  rw [show q :: (l ++ [q]) = (q :: l) ++ [q] by simp,
      List.getLast?_append_cons]
  rfl

/-- `is_quoted_identifier` holds of any identifier wrapped in its own
mode's quote character. -/
theorem is_quoted_wrap (sql_mode : List Char) (l : List Char) :
    is_quoted_identifier
      ((if containsSeq sql_mode ansiToken then dquote else backquote) ::
        (replaceDoubled
          (if containsSeq sql_mode ansiToken then dquote else backquote)
          l ++
         [if containsSeq sql_mode ansiToken then dquote else backquote]))
      sql_mode = .ok true := by
  by_cases hA : containsSeq sql_mode ansiToken <;>
    simp [hA, is_quoted_identifier, getLast?_wrap, dquote, backquote]

/-- An already-quoted (non-empty) identifier is returned unchanged. -/
theorem quote_identifier_of_quoted (id : List Char) (sql_mode : List Char)
    (h : id ≠ []) (hq : is_quoted_identifier id sql_mode = .ok true) :
    quote_identifier id sql_mode = id := by
  unfold quote_identifier
  rw [if_neg (by simpa [List.length_eq_zero] using h), hq]

/-- C7: for every sql_mode, quoting the empty identifier yields two
backticks; an already-quoted identifier is returned unchanged; and every
not-yet-quoted identifier is wrapped in the mode's quote character with
embedded quote characters doubled, after which `is_quoted_identifier`
accepts it and `quote_identifier` is idempotent on it. -/
theorem quote_identifier_roundtrip :
    (∀ sql_mode, quote_identifier [] sql_mode = [backquote, backquote]) ∧
    (∀ id sql_mode, id ≠ [] →
      is_quoted_identifier id sql_mode = .ok true →
      quote_identifier id sql_mode = id) ∧
    (∀ id sql_mode, id ≠ [] →
      is_quoted_identifier id sql_mode = .ok false →
      quote_identifier id sql_mode =
        ((if containsSeq sql_mode ansiToken then dquote else backquote) ::
          (replaceDoubled
            (if containsSeq sql_mode ansiToken then dquote else backquote)
            id ++
           [if containsSeq sql_mode ansiToken then dquote else backquote])) ∧
      is_quoted_identifier (quote_identifier id sql_mode) sql_mode =
        .ok true ∧
      quote_identifier (quote_identifier id sql_mode) sql_mode =
        quote_identifier id sql_mode) := by
  refine ⟨fun sql_mode => by simp [quote_identifier],
          quote_identifier_of_quoted, ?_⟩
  intro id sql_mode h hq
  have hwrap : quote_identifier id sql_mode =
      ((if containsSeq sql_mode ansiToken then dquote else backquote) ::
        (replaceDoubled
          (if containsSeq sql_mode ansiToken then dquote else backquote)
          id ++
         [if containsSeq sql_mode ansiToken then dquote else backquote])) := by
    unfold quote_identifier
    rw [if_neg (by simpa [List.length_eq_zero] using h), hq]
    by_cases hA : containsSeq sql_mode ansiToken <;> simp [hA]
  have hq2 : is_quoted_identifier (quote_identifier id sql_mode) sql_mode =
      .ok true := by
    rw [hwrap]; exact is_quoted_wrap sql_mode id
  exact ⟨hwrap, hq2,
         quote_identifier_of_quoted _ _ (by rw [hwrap]; simp) hq2⟩

/-- Witness for C7 at the identifier `"a"` with the default sql_mode. -/
theorem quote_identifier_roundtrip_witness :
    quote_identifier [] [] = [backquote, backquote] ∧
    (['a'] : List Char) ≠ [] ∧
    is_quoted_identifier ['a'] [] = .ok false ∧
    (quote_identifier ['a'] [] = [backquote, 'a', backquote] ∧
     is_quoted_identifier (quote_identifier ['a'] []) [] = .ok true ∧
     quote_identifier (quote_identifier ['a'] []) [] =
       quote_identifier ['a'] []) :=
  ⟨quote_identifier_roundtrip.1 [], by simp, by rfl,
   by
    have h := quote_identifier_roundtrip.2.2 ['a'] [] (by simp) (by rfl)
    exact ⟨by rw [h.1]; rfl, h.2.1, h.2.2⟩⟩

/-- String append concatenates the underlying character lists. -/
theorem strData_append (a b : String) : (a ++ b).data = a.data ++ b.data :=
  rfl

/-- Unfolding lemma for `dictLookup` on a cons. -/
theorem dictLookup_cons (kv : String × PyVal) (rest : PyDict) (k : String) :
    dictLookup (kv :: rest) k =
      if kv.1 == k then some kv.2 else dictLookup rest k := by
  by_cases h : (kv.1 == k) = true
  · simp [dictLookup, List.find?_cons_of_pos, h]
  · have hf : (kv.1 == k) = false := by simpa using h
    simp [dictLookup, List.find?_cons, hf]

/-- Erasing one key leaves lookups of other keys unchanged. -/
theorem dictLookup_eraseP_ne (d : PyDict) (k k' : String) (h : k ≠ k') :
    dictLookup (d.eraseP (fun kv => kv.1 == k')) k = dictLookup d k := by
  induction d with
  | nil => rfl
  | cons kv rest ih =>
    by_cases hk : kv.1 = k'
    · rw [List.eraseP_cons_of_pos (p := fun kv => kv.1 == k')
            (l := rest) (by simp [hk])]
      rw [dictLookup_cons, if_neg (by simp [hk]; exact Ne.symm h)]
    · rw [List.eraseP_cons_of_neg (p := fun kv => kv.1 == k')
            (l := rest) (by simp [hk])]
      rw [dictLookup_cons, dictLookup_cons, ih]

/-- The popped value is the looked-up value. -/
theorem dictPop_fst (d : PyDict) (k : String) :
    (dictPop d k).1 = dictLookup d k := by
  unfold dictPop
  cases h : dictLookup d k <;> simp [h]

/-- Popping one key leaves lookups of other keys unchanged. -/
theorem dictLookup_dictPop_ne (d : PyDict) (k k' : String) (h : k ≠ k') :
    dictLookup (dictPop d k').2 k = dictLookup d k := by
  unfold dictPop
  cases hl : dictLookup d k' with
  | none => simp
  | some v => simpa using dictLookup_eraseP_ne d k k' h

/-- An entry with a different key survives erasure. -/
theorem mem_eraseP_of_key_ne (d : PyDict) (kv : String × PyVal)
    (k' : String) (hm : kv ∈ d) (h : kv.1 ≠ k') :
    kv ∈ d.eraseP (fun e => e.1 == k') := by
  induction d with
  | nil => cases hm
  | cons e rest ih =>
    by_cases he : e.1 = k'
    · rw [List.eraseP_cons_of_pos (p := fun e => e.1 == k')
            (l := rest) (by simp [he])]
      rcases List.mem_cons.mp hm with rfl | hmem
      · exact absurd he h
      · exact hmem
    · rw [List.eraseP_cons_of_neg (p := fun e => e.1 == k')
            (l := rest) (by simp [he])]
      rcases List.mem_cons.mp hm with rfl | hmem
      · exact List.mem_cons_self _ _
      · exact List.mem_cons_of_mem _ (ih hmem)

/-- An entry with a different key survives a pop. -/
theorem mem_dictPop_of_key_ne (d : PyDict) (kv : String × PyVal)
    (k' : String) (hm : kv ∈ d) (h : kv.1 ≠ k') :
    kv ∈ (dictPop d k').2 := by
  unfold dictPop
  cases hl : dictLookup d k' with
  | none => simpa using hm
  | some v => simpa using mem_eraseP_of_key_ne d kv k' hm h

/-- `strContains` is reflexive. -/
theorem strContains_refl (s : String) : strContains s s :=
  ⟨[], [], by simp⟩

/-- A substring of the right part is a substring of an append. -/
theorem strContains_appendL (a b n : String) (h : strContains b n) :
    strContains (a ++ b) n := by
  rcases h with ⟨pre, post, hd⟩
  exact ⟨a.data ++ pre, post, by
    show (a ++ b).data = a.data ++ pre ++ n.data ++ post
    have : (a ++ b).data = a.data ++ b.data := rfl
    rw [this, hd]; simp⟩

/-- A substring of the left part is a substring of an append. -/
theorem strContains_appendR (a b n : String) (h : strContains a n) :
    strContains (a ++ b) n := by
  rcases h with ⟨pre, post, hd⟩
  exact ⟨pre, post ++ b.data, by
    show (a ++ b).data = pre ++ n.data ++ (post ++ b.data)
    have : (a ++ b).data = a.data ++ b.data := rfl
    rw [this, hd]; simp⟩

/-- `strContains` is transitive. -/
theorem strContains_trans (a b c : String) (h1 : strContains a b)
    (h2 : strContains b c) : strContains a c := by
  rcases h1 with ⟨p1, q1, hd1⟩
  rcases h2 with ⟨p2, q2, hd2⟩
  exact ⟨p1 ++ p2, q2 ++ q1, by rw [hd1, hd2]; simp⟩

/-- Every element of a list is contained in its comma join. -/
theorem strContains_joinComma (parts : List String) (p : String)
    (h : p ∈ parts) : strContains (joinComma parts) p := by
  induction parts with
  | nil => cases h
  | cons x xs ih =>
    cases xs with
    | nil =>
      rcases List.mem_cons.mp h with rfl | hmem
      · exact strContains_refl p
      · cases hmem
    | cons y ys =>
      rcases List.mem_cons.mp h with rfl | hmem
      · show strContains (p ++ ", " ++ joinComma (y :: ys)) p
        exact strContains_appendR _ _ _
          (strContains_appendR _ _ _ (strContains_refl p))
      · show strContains (x ++ ", " ++ joinComma (y :: ys)) p
        exact strContains_appendL _ _ _ (ih hmem)

/-- Each dict entry's rendering appears among `pyReprD`'s parts. -/
theorem mem_pyReprD (d : PyDict) (kv : String × PyVal) (h : kv ∈ d) :
    ("\x27" ++ kv.1 ++ "\x27: " ++ pyRepr kv.2) ∈ pyReprD d := by
  induction d with
  | nil => cases h
  | cons e rest ih =>
    rcases List.mem_cons.mp h with rfl | hmem
    · exact List.mem_cons_self _ _
    · exact List.mem_cons_of_mem _ (ih hmem)

/-- The `repr` of a dict names each of its keys. -/
theorem strContains_pyRepr_key (d : PyDict) (kv : String × PyVal)
    (h : kv ∈ d) : strContains (pyRepr (.vDict d)) kv.1 := by
  have h1 : strContains ("\x27" ++ kv.1 ++ "\x27: " ++ pyRepr kv.2) kv.1 := by
    refine ⟨"\x27".data, ("\x27: " ++ pyRepr kv.2).data, ?_⟩
    simp [strContains, strData_append]
  have h2 := strContains_joinComma (pyReprD d) _ (mem_pyReprD d kv h)
  have h3 : pyRepr (.vDict d) =
      "\x7b" ++ joinComma (pyReprD d) ++ "\x7d" := by
    simp [pyRepr]
  rw [h3]
  exact strContains_appendR _ _ _
    (strContains_appendL _ _ _ (strContains_trans _ _ _ h2 h1))

/-- Convert "never ok" into "some error" for `Except` results. -/
theorem exists_error_of_no_ok {α : Type} (x : Except PyErr α)
    (h : ∀ r, x ≠ .ok r) : ∃ e, x = .error e := by
  cases x with
  | error e => exact ⟨e, rfl⟩
  | ok r => exact absurd rfl (h r)


/-- Under a SPATIAL index type, a field whose `required` member is falsy
(or absent) makes its constraint-loop iteration raise. -/
theorem processFieldDesc_spatial_err (argsType : PyVal) (d : PyDict)
    (hU : pyUpper argsType = .ok "SPATIAL")
    (hreq : pyTruthy ((dictLookup d "required").getD (.vBool false))
      = false) :
    ∃ e, processFieldDesc argsType (.vDict d) = .error e := by
  refine exists_error_of_no_ok _ (fun r hok => ?_)
  simp only [processFieldDesc] at hok
  split at hok
  · simp at hok
  · rename_i memberV d1 hpop1
    split at hok
    · simp at hok
    · rename_i typeV d2 hpop2
      split at hok
      · simp at hok
      · rename_i argsTypeU hup
        rw [hU] at hup
        injection hup with hA
        split at hok
        · simp at hok
        · rename_i hcond
          apply hcond
          have hs1 : (dictPop d "field").2 = d1 := congrArg Prod.snd hpop1
          have hs2 : (dictPop d1 "type").2 = d2 := congrArg Prod.snd hpop2
          have hreqv : (dictPop d2 "required").1 = dictLookup d "required" := by
            rw [dictPop_fst, ← hs2,
                dictLookup_dictPop_ne d1 "required" "type" (by decide),
                ← hs1,
                dictLookup_dictPop_ne d "required" "field" (by decide)]
          rw [hreqv, ← hA]
          simp [hreq]

/-- Under an INDEX-type index, a field whose `type` member equals the
string `"GEOJSON"` makes its constraint-loop iteration raise. -/
theorem processFieldDesc_geojson_err (argsType : PyVal) (d : PyDict)
    (hU : pyUpper argsType = .ok "INDEX")
    (ht : dictLookup d "type" = some (.vStr "GEOJSON")) :
    ∃ e, processFieldDesc argsType (.vDict d) = .error e := by
  refine exists_error_of_no_ok _ (fun r hok => ?_)
  simp only [processFieldDesc] at hok
  split at hok
  · simp at hok
  · rename_i memberV d1 hpop1
    split at hok
    · rename_i d2 hpop2
      simp at hok
    · rename_i typeV d2 hpop2
      have hs1 : (dictPop d "field").2 = d1 := congrArg Prod.snd hpop1
      have htv : (dictPop d1 "type").1 = some (.vStr "GEOJSON") := by
        rw [dictPop_fst, ← hs1,
            dictLookup_dictPop_ne d "type" "field" (by decide), ht]
      have htypeV : typeV = .vStr "GEOJSON" := by
        have := congrArg Prod.fst hpop2
        rw [htv] at this
        exact Option.some.inj this.symm
      split at hok
      · simp at hok
      · rename_i argsTypeU hup
        rw [hU] at hup
        injection hup with hA
        split at hok
        · simp at hok
        · rename_i hcond1
          split at hok
          · simp at hok
          · rename_i hcond2
            apply hcond2
            rw [← hA, htypeV]
            simp [pyEqStr]

/-- A field carrying a `collation` member whose `type` is a string not
starting (case-insensitively) with TEXT makes its constraint-loop
iteration raise, whatever the index type. -/
theorem processFieldDesc_collation_err (argsType : PyVal) (d : PyDict)
    (tvs : String)
    (hc : (dictLookup d "collation").isSome = true)
    (ht : dictLookup d "type" = some (.vStr tvs))
    (hp : strStartsWith (pyStrUpper tvs) "TEXT" = false) :
    ∃ e, processFieldDesc argsType (.vDict d) = .error e := by
  refine exists_error_of_no_ok _ (fun r hok => ?_)
  simp only [processFieldDesc] at hok
  split at hok
  · simp at hok
  · rename_i memberV d1 hpop1
    split at hok
    · simp at hok
    · rename_i typeV d2 hpop2
      have hs1 : (dictPop d "field").2 = d1 := congrArg Prod.snd hpop1
      have hs2 : (dictPop d1 "type").2 = d2 := congrArg Prod.snd hpop2
      have htv : (dictPop d1 "type").1 = some (.vStr tvs) := by
        rw [dictPop_fst, ← hs1,
            dictLookup_dictPop_ne d "type" "field" (by decide), ht]
      have htypeV : typeV = .vStr tvs := by
        have := congrArg Prod.fst hpop2
        rw [htv] at this
        exact Option.some.inj this.symm
      have hchain : dictLookup (dictPop d2 "required").2 "collation" =
          dictLookup d "collation" := by
        rw [dictLookup_dictPop_ne d2 "collation" "required" (by decide),
            ← hs2,
            dictLookup_dictPop_ne d1 "collation" "type" (by decide),
            ← hs1,
            dictLookup_dictPop_ne d "collation" "field" (by decide)]
      split at hok
      · simp at hok
      · rename_i argsTypeU hup
        split at hok
        · simp at hok
        · rename_i hcond1
          split at hok
          · simp at hok
          · rename_i hcond2
            split at hok
            · simp at hok
            · rename_i collationPart d4 hcoll_eq
              rw [hchain] at hcoll_eq
              rw [htypeV] at hcoll_eq
              simp [hc, pyUpper, hp] at hcoll_eq

/-- If some member of the fields list makes its iteration raise, the
whole constraint loop raises. -/
theorem processFields_err_of_mem (argsType : PyVal) (l : List PyVal)
    (fd : PyVal) (hm : fd ∈ l)
    (hfd : ∃ e, processFieldDesc argsType fd = .error e) :
    ∃ e, processFields argsType l = .error e := by
  induction l with
  | nil => cases hm
  | cons x xs ih =>
    cases hx : processFieldDesc argsType x with
    | error e => exact ⟨e, by simp [processFields, hx]⟩
    | ok pr =>
      obtain ⟨c, residual⟩ := pr
      rcases List.mem_cons.mp hm with rfl | hmem
      · rcases hfd with ⟨e, he⟩
        rw [he] at hx
        cases hx
      · rcases ih hmem with ⟨e2, he2⟩
        exact ⟨e2, by simp [processFields, hx, he2]⟩

/-- `init` stores the popped `"fields"` value. -/
theorem create_index_init_fields (name : Option String) (desc : PyDict) :
    (CreateCollectionIndexStatement.init name desc).fields_desc =
      (dictLookup desc "fields").getD (.vList []) := by
  unfold CreateCollectionIndexStatement.init
  cases h : dictPop desc "fields" with
  | mk fv rest =>
    have h1 : fv = dictLookup desc "fields" := by
      rw [← dictPop_fst, h]
    simp [h1]

/-- `init` keeps the rest of the (copied) descriptor. -/
theorem create_index_init_desc (name : Option String) (desc : PyDict) :
    (CreateCollectionIndexStatement.init name desc).index_desc =
      (dictPop desc "fields").2 := by
  unfold CreateCollectionIndexStatement.init
  cases h : dictPop desc "fields" with
  | mk fv rest =>
    have h2 : rest = (dictPop desc "fields").2 := by rw [h]
    simp [h2]

/-- `init` stores the index name unchanged. -/
theorem create_index_init_name (name : Option String) (desc : PyDict) :
    (CreateCollectionIndexStatement.init name desc).index_name = name := by
  unfold CreateCollectionIndexStatement.init
  cases h : dictPop desc "fields" with
  | mk fv rest => simp

/-- If the constraint loop raises, `execute` raises (whatever the name
outcome), provided the fields member is a list. -/
theorem create_index_execute_err (st : CreateIndexState)
    (coll sch : String) (nameOut : Except Unit Bool) (l : List PyVal)
    (hf : st.fields_desc = .vList l)
    (hloop : ∃ e, processFields
      (((dictPop st.index_desc "type").1).getD (.vStr "INDEX")) l
        = .error e) :
    ∃ e, CreateCollectionIndexStatement.execute st coll sch nameOut
      = .error e := by
  refine exists_error_of_no_ok _ (fun r hok => ?_)
  simp only [CreateCollectionIndexStatement.execute] at hok
  split at hok
  · simp at hok
  · split at hok
    · simp at hok
    · split at hok
      · simp at hok
      · split at hok
        · simp at hok
        · split at hok
          · rename_i fieldsList heq
            rw [hf] at heq
            injection heq with heq'
            subst heq'
            split at hok
            · simp at hok
            · split at hok
              · simp at hok
              · split at hok
                · simp at hok
                · rename_i constraints residuals hpf
                  rcases hloop with ⟨e, he⟩
                  rw [he] at hpf
                  cases hpf
          · rename_i x hnotlist
            exact hnotlist l hf

/-- A well-formed GEOJSON field under a SPATIAL index passes its
iteration, yielding its constraint and an emptied field dict. -/
theorem processFieldDesc_geo (fv : PyVal) :
    processFieldDesc (.vStr "SPATIAL") (mkGeoField fv) =
      .ok (mkGeoConstraint fv, []) := rfl

/-- The constraint loop on well-formed GEOJSON fields succeeds with one
constraint per field, in order. -/
theorem processFields_geo (fvs : List PyVal) :
    processFields (.vStr "SPATIAL") (fvs.map mkGeoField) =
      .ok (fvs.map mkGeoConstraint, fvs.map (fun _ => .vDict [])) := by
  induction fvs with
  | nil => rfl
  | cons fv rest ih => simp [processFields, processFieldDesc_geo, ih]

/-- All residual field dicts of the well-formed run are empty. -/
theorem checkResiduals_geo (fvs : List PyVal) :
    checkResiduals (fvs.map (fun _ => PyVal.vDict [])) = .ok () := by
  induction fvs with
  | nil => rfl
  | cons fv rest ih => simpa [checkResiduals, pyTruthy] using ih

/-- A valid-name descriptor with a non-empty fields list, falsy
`unique`, and some unrecognized top-level key fails with the
"Unidentified fields" error, whose message names that key. -/
theorem create_index_unidentified_key (nm coll sch : String)
    (desc : PyDict) (l : List PyVal) (k : String) (v : PyVal)
    (hf : dictLookup desc "fields" = some (.vList l)) (hne : l ≠ [])
    (hm : (k, v) ∈ desc) (hk1 : k ≠ "fields") (hk2 : k ≠ "type")
    (hk3 : k ≠ "unique")
    (hu : pyTruthy ((dictLookup desc "unique").getD (.vBool false))
      = false) :
    ∃ msg, CreateCollectionIndexStatement.execute
        (CreateCollectionIndexStatement.init (some nm) desc) coll sch
        (.ok true) = .error (.programmingError msg) ∧ strContains msg k := by
  have h1 := create_index_init_name (some nm) desc
  have h2 : (CreateCollectionIndexStatement.init (some nm) desc).fields_desc
      = .vList l := by
    rw [create_index_init_fields, hf]
    rfl
  have h3 := create_index_init_desc (some nm) desc
  have hle : l.isEmpty = false := by
    cases l with
    | nil => exact absurd rfl hne
    | cons a as => rfl
  have hm3 : (k, v) ∈
      (dictPop (dictPop (dictPop desc "fields").2 "type").2 "unique").2 :=
    mem_dictPop_of_key_ne _ _ _
      (mem_dictPop_of_key_ne _ _ _
        (mem_dictPop_of_key_ne _ _ _ hm hk1) hk2) hk3
  have hD3e : ((dictPop (dictPop (dictPop desc "fields").2 "type").2
      "unique").2).isEmpty = false := by
    cases hD : (dictPop (dictPop (dictPop desc "fields").2 "type").2
        "unique").2 with
    | nil => rw [hD] at hm3; cases hm3
    | cons a as => rfl
  have huv : (dictPop (dictPop (dictPop desc "fields").2 "type").2
      "unique").1 = dictLookup desc "unique" := by
    rw [dictPop_fst,
        dictLookup_dictPop_ne _ _ _ (by decide),
        dictLookup_dictPop_ne _ _ _ (by decide)]
  refine ⟨"Unidentified fields: " ++
      pyRepr (.vDict (dictPop (dictPop (dictPop desc "fields").2 "type").2
        "unique").2), ?_, ?_⟩
  · have hft : pyTruthy (.vList l) = true := by simp [pyTruthy, hle]
    simp only [CreateCollectionIndexStatement.execute, h1, h2, h3, hft,
               huv, hu, hD3e]
    simp
  · exact strContains_appendL _ _ _ (strContains_pyRepr_key _ _ hm3)

/-- Replicated empty residual dicts pass the second loop. -/
theorem checkResiduals_replicate (n : Nat) :
    checkResiduals (List.replicate n (PyVal.vDict [])) = .ok () := by
  induction n with
  | zero => rfl
  | succ m ih => simpa [checkResiduals, pyTruthy] using ih

/-- A well-formed SPATIAL/GEOJSON descriptor (all fields required, no
extraneous keys) executes successfully, handing the transport layer one
constraint per input field, in order. -/
theorem create_index_success_geo (nm coll sch : String)
    (fvs : List PyVal) (hne : fvs ≠ []) :
    CreateCollectionIndexStatement.execute
      (CreateCollectionIndexStatement.init (some nm)
        [("fields", .vList (fvs.map mkGeoField)),
         ("type", .vStr "SPATIAL")]) coll sch (.ok true) =
      .ok { namespaceArg := "mysqlx"
            command := "create_collection_index"
            mustSucceed := true
            args := { name := nm
                      collection := coll
                      schema := sch
                      type := .vStr "SPATIAL"
                      unique := .vBool false
                      constraint := fvs.map mkGeoConstraint } } := by
  have h2 : (CreateCollectionIndexStatement.init (some nm)
      [("fields", .vList (fvs.map mkGeoField)),
       ("type", .vStr "SPATIAL")]).fields_desc =
      .vList (fvs.map mkGeoField) := by
    rw [create_index_init_fields]
    rfl
  have h3 : (CreateCollectionIndexStatement.init (some nm)
      [("fields", .vList (fvs.map mkGeoField)),
       ("type", .vStr "SPATIAL")]).index_desc =
      [("type", .vStr "SPATIAL")] := by
    rw [create_index_init_desc]
    rfl
  have hft : pyTruthy (.vList (fvs.map mkGeoField)) = true := by
    cases fvs with
    | nil => exact absurd rfl hne
    | cons a as => rfl
  simp only [CreateCollectionIndexStatement.execute,
             create_index_init_name, h2, h3, hft]
  simp [dictPop, dictLookup, pyTruthy, processFields_geo,
        checkResiduals_geo, checkResiduals_replicate]

/-- Error classification for one constraint-loop iteration: on a
dictionary field whose `type` member (if present) is a string, and with
a string-valued index type, every raise is a `ProgrammingError` (the
`KeyError`s are translated by the `try/except`, and the `AttributeError`
paths need a non-string receiver for `.upper()`). -/
theorem processFieldDesc_classify (argsType : PyVal) (d : PyDict)
    (u : String) (hU : pyUpper argsType = .ok u)
    (hwf : ∀ t, dictLookup d "type" = some t → ∃ s, t = PyVal.vStr s) :
    ∀ e, processFieldDesc argsType (.vDict d) = .error e →
      ∃ m, e = .programmingError m := by
  intro e he
  simp only [processFieldDesc] at he
  split at he
  · exact ⟨_, (Except.error.inj he).symm⟩
  · rename_i memberV d1 hpop1
    split at he
    · exact ⟨_, (Except.error.inj he).symm⟩
    · rename_i typeV d2 hpop2
      have hs1 : (dictPop d "field").2 = d1 := congrArg Prod.snd hpop1
      have htv : dictLookup d "type" = some typeV := by
        have h1 : (dictPop d1 "type").1 = some typeV := by rw [hpop2]
        rw [dictPop_fst] at h1
        rw [← h1, ← hs1, dictLookup_dictPop_ne d "type" "field" (by decide)]
      obtain ⟨s, hsv⟩ := hwf typeV htv
      subst hsv
      split at he
      · rename_i e2 hup
        rw [hU] at hup
        cases hup
      · rename_i argsTypeU hup
        split at he
        · exact ⟨_, (Except.error.inj he).symm⟩
        · split at he
          · exact ⟨_, (Except.error.inj he).symm⟩
          · split at he
            · rename_i e3 hcoll
              have he3 : e3 = e := Except.error.inj he
              subst he3
              split at hcoll
              · simp only [pyUpper] at hcoll
                split at hcoll
                · exact ⟨_, (Except.error.inj hcoll).symm⟩
                · cases hcoll
              · cases hcoll
            · rename_i collationPart d4 hcoll
              split at he
              · rename_i e4 hopt
                have he4 : e4 = e := Except.error.inj he
                subst he4
                split at hopt
                · simp only [pyUpper] at hopt
                  split at hopt
                  · exact ⟨_, (Except.error.inj hopt).symm⟩
                  · cases hopt
                · cases hopt
              · rename_i optionsPart d5 hopt
                split at he
                · rename_i e5 hsrid
                  have he5 : e5 = e := Except.error.inj he
                  subst he5
                  split at hsrid
                  · simp only [pyUpper] at hsrid
                    split at hsrid
                    · exact ⟨_, (Except.error.inj hsrid).symm⟩
                    · cases hsrid
                  · cases hsrid
                · rename_i sridPart d6 hsrid
                  cases he

/-- Error classification for the whole constraint loop. -/
theorem processFields_classify (argsType : PyVal) (u : String)
    (hU : pyUpper argsType = .ok u) :
    ∀ (l : List PyVal), (∀ fd ∈ l, FieldTypeIsStr fd) →
      ∀ e, processFields argsType l = .error e →
        ∃ m, e = .programmingError m := by
  intro l
  induction l with
  | nil =>
    intro _ e he
    simp [processFields] at he
  | cons x xs ih =>
    intro hwf e he
    simp only [processFields] at he
    split at he
    · rename_i e1 h1
      obtain ⟨d, rfl, hts⟩ := hwf x (List.mem_cons_self _ _)
      obtain ⟨m, hm⟩ := processFieldDesc_classify argsType d u hU hts e1 h1
      exact ⟨m, (Except.error.inj he).symm.trans hm⟩
    · rename_i c residual h1
      split at he
      · rename_i e2 h2
        obtain ⟨m, hm⟩ :=
          ih (fun fd hfd => hwf fd (List.mem_cons_of_mem _ hfd)) e2 h2
        exact ⟨m, (Except.error.inj he).symm.trans hm⟩
      · cases he

/-- Error classification for the residual-keys loop. -/
theorem checkResiduals_classify : ∀ (rs : List PyVal) (e : PyErr),
    checkResiduals rs = .error e → ∃ m, e = .programmingError m := by
  intro rs
  induction rs with
  | nil =>
    intro e he
    simp [checkResiduals] at he
  | cons r rest ih =>
    intro e he
    simp only [checkResiduals] at he
    split at he
    · exact ⟨_, (Except.error.inj he).symm⟩
    · exact ih e he

/-- Error classification for `execute()`: with a falsy `unique` member,
a string-valued (or defaulted) index type and well-shaped field entries,
every raise of `execute()` is a `ProgrammingError` — a validation
error. -/
theorem create_index_execute_classify (st : CreateIndexState)
    (coll sch : String) (nameOut : Except Unit Bool) (l : List PyVal)
    (u : String) (hf : st.fields_desc = .vList l)
    (hwf : ∀ fd ∈ l, FieldTypeIsStr fd)
    (hU : pyUpper (((dictPop st.index_desc "type").1).getD (.vStr "INDEX"))
      = .ok u)
    (hu : pyTruthy (((dictPop (dictPop st.index_desc "type").2
      "unique").1).getD (.vBool false)) = false) :
    ∀ e, CreateCollectionIndexStatement.execute st coll sch nameOut
        = .error e → ∃ m, e = .programmingError m := by
  intro e he
  simp only [CreateCollectionIndexStatement.execute] at he
  split at he
  · exact ⟨_, (Except.error.inj he).symm⟩
  · split at he
    · exact ⟨_, (Except.error.inj he).symm⟩
    · split at he
      · exact ⟨_, (Except.error.inj he).symm⟩
      · split at he
        · exact ⟨_, (Except.error.inj he).symm⟩
        · split at he
          · rename_i fieldsList heqf
            rw [hf] at heqf
            injection heqf with h'
            subst h'
            split at he
            · rename_i hcond
              rw [hu] at hcond
              cases hcond
            · split at he
              · exact ⟨_, (Except.error.inj he).symm⟩
              · split at he
                · rename_i e1 h1
                  obtain ⟨m, hm⟩ := processFields_classify _ u hU l hwf e1 h1
                  exact ⟨m, (Except.error.inj he).symm.trans hm⟩
                · rename_i constraints residuals h1
                  split at he
                  · rename_i e2 h2
                    obtain ⟨m, hm⟩ := checkResiduals_classify residuals e2 h2
                    exact ⟨m, (Except.error.inj he).symm.trans hm⟩
                  · cases he
          · exact ⟨_, (Except.error.inj he).symm⟩

/-- C2: the index-descriptor validation matrix.  (1) a SPATIAL-type
descriptor with any field whose `required` is falsy fails with a
validation error (`ProgrammingError`); (2) an INDEX-type (explicit or
defaulted) descriptor with any GEOJSON-typed field fails with a
validation error; (3) a `collation` member on a field whose type does
not start with TEXT fails with a validation error; (4) an unrecognized
top-level key fails with a validation error naming that key; (5) a
well-formed SPATIAL/GEOJSON descriptor with all fields required
succeeds, handing the transport layer one constraint per input field,
in the input order.  Rows 1-3 are scoped, as row 4 is, to descriptors
whose `unique` member is falsy (a truthy one raises the
unsupported-operation error first) and whose field entries are
dictionaries with string `type` members (other shapes raise bare
`AttributeError`s instead of validation errors). -/
theorem index_descriptor_validation :
    (∀ (name : Option String) (nameOut : Except Unit Bool)
       (coll sch : String) (desc : PyDict) (l : List PyVal)
       (fd : PyDict) (tv : PyVal),
      dictLookup desc "fields" = some (.vList l) →
      dictLookup desc "type" = some tv →
      pyUpper tv = .ok "SPATIAL" →
      PyVal.vDict fd ∈ l →
      pyTruthy ((dictLookup fd "required").getD (.vBool false)) = false →
      (∀ fd' ∈ l, FieldTypeIsStr fd') →
      pyTruthy ((dictLookup desc "unique").getD (.vBool false)) = false →
      ∃ msg, CreateCollectionIndexStatement.execute
        (CreateCollectionIndexStatement.init name desc) coll sch nameOut
          = .error (.programmingError msg)) ∧
    (∀ (name : Option String) (nameOut : Except Unit Bool)
       (coll sch : String) (desc : PyDict) (l : List PyVal) (fd : PyDict),
      dictLookup desc "fields" = some (.vList l) →
      pyUpper ((dictLookup desc "type").getD (.vStr "INDEX"))
        = .ok "INDEX" →
      PyVal.vDict fd ∈ l →
      dictLookup fd "type" = some (.vStr "GEOJSON") →
      (∀ fd' ∈ l, FieldTypeIsStr fd') →
      pyTruthy ((dictLookup desc "unique").getD (.vBool false)) = false →
      ∃ msg, CreateCollectionIndexStatement.execute
        (CreateCollectionIndexStatement.init name desc) coll sch nameOut
          = .error (.programmingError msg)) ∧
    (∀ (name : Option String) (nameOut : Except Unit Bool)
       (coll sch : String) (desc : PyDict) (l : List PyVal)
       (fd : PyDict) (tvs : String),
      dictLookup desc "fields" = some (.vList l) →
      PyVal.vDict fd ∈ l →
      (dictLookup fd "collation").isSome = true →
      dictLookup fd "type" = some (.vStr tvs) →
      strStartsWith (pyStrUpper tvs) "TEXT" = false →
      (∀ fd' ∈ l, FieldTypeIsStr fd') →
      (∀ t, dictLookup desc "type" = some t → ∃ s, t = PyVal.vStr s) →
      pyTruthy ((dictLookup desc "unique").getD (.vBool false)) = false →
      ∃ msg, CreateCollectionIndexStatement.execute
        (CreateCollectionIndexStatement.init name desc) coll sch nameOut
          = .error (.programmingError msg)) ∧
    (∀ (nm coll sch : String) (desc : PyDict) (l : List PyVal)
       (k : String) (v : PyVal),
      dictLookup desc "fields" = some (.vList l) → l ≠ [] →
      (k, v) ∈ desc → k ≠ "fields" → k ≠ "type" → k ≠ "unique" →
      pyTruthy ((dictLookup desc "unique").getD (.vBool false)) = false →
      ∃ msg, CreateCollectionIndexStatement.execute
          (CreateCollectionIndexStatement.init (some nm) desc) coll sch
          (.ok true) = .error (.programmingError msg) ∧
        strContains msg k) ∧
    (∀ (nm coll sch : String) (fvs : List PyVal), fvs ≠ [] →
      CreateCollectionIndexStatement.execute
        (CreateCollectionIndexStatement.init (some nm)
          [("fields", .vList (fvs.map mkGeoField)),
           ("type", .vStr "SPATIAL")]) coll sch (.ok true) =
        .ok { namespaceArg := "mysqlx"
              command := "create_collection_index"
              mustSucceed := true
              args := { name := nm
                        collection := coll
                        schema := sch
                        type := .vStr "SPATIAL"
                        unique := .vBool false
                        constraint := fvs.map mkGeoConstraint } } ∧
      (fvs.map mkGeoConstraint).length = fvs.length) := by
  refine ⟨?_, ?_, ?_, create_index_unidentified_key,
          fun nm coll sch fvs hne =>
            ⟨create_index_success_geo nm coll sch fvs hne, by simp⟩⟩
  · intro name nameOut coll sch desc l fd tv hf ht hU hm hreq hwfl huniq
    have hfd : (CreateCollectionIndexStatement.init name desc).fields_desc
        = .vList l := by
      rw [create_index_init_fields, hf]
      rfl
    have hAT : ((dictPop
        (CreateCollectionIndexStatement.init name desc).index_desc
          "type").1).getD (.vStr "INDEX") = tv := by
      rw [dictPop_fst, create_index_init_desc,
          dictLookup_dictPop_ne _ _ _ (by decide), ht]
      rfl
    have herr := create_index_execute_err _ coll sch nameOut l hfd (by
      rw [hAT]
      exact processFields_err_of_mem _ _ _ hm
        (processFieldDesc_spatial_err tv fd hU hreq))
    have hU2 : pyUpper (((dictPop
        (CreateCollectionIndexStatement.init name desc).index_desc
          "type").1).getD (.vStr "INDEX")) = .ok "SPATIAL" := by
      rw [hAT]
      exact hU
    have hu2 : pyTruthy (((dictPop (dictPop
        (CreateCollectionIndexStatement.init name desc).index_desc
          "type").2 "unique").1).getD (.vBool false)) = false := by
      rw [dictPop_fst, dictLookup_dictPop_ne _ _ _ (by decide),
          create_index_init_desc,
          dictLookup_dictPop_ne _ _ _ (by decide)]
      exact huniq
    obtain ⟨e, he⟩ := herr
    obtain ⟨m, hm2⟩ := create_index_execute_classify _ coll sch nameOut l
      "SPATIAL" hfd hwfl hU2 hu2 e he
    exact ⟨m, by rw [← hm2]; exact he⟩
  · intro name nameOut coll sch desc l fd hf hTu hm htf hwfl huniq
    have hfd : (CreateCollectionIndexStatement.init name desc).fields_desc
        = .vList l := by
      rw [create_index_init_fields, hf]
      rfl
    have hAT : ((dictPop
        (CreateCollectionIndexStatement.init name desc).index_desc
          "type").1).getD (.vStr "INDEX") =
        (dictLookup desc "type").getD (.vStr "INDEX") := by
      rw [dictPop_fst, create_index_init_desc,
          dictLookup_dictPop_ne _ _ _ (by decide)]
    have herr := create_index_execute_err _ coll sch nameOut l hfd (by
      rw [hAT]
      exact processFields_err_of_mem _ _ _ hm
        (processFieldDesc_geojson_err _ fd hTu htf))
    have hU2 : pyUpper (((dictPop
        (CreateCollectionIndexStatement.init name desc).index_desc
          "type").1).getD (.vStr "INDEX")) = .ok "INDEX" := by
      rw [hAT]
      exact hTu
    have hu2 : pyTruthy (((dictPop (dictPop
        (CreateCollectionIndexStatement.init name desc).index_desc
          "type").2 "unique").1).getD (.vBool false)) = false := by
      rw [dictPop_fst, dictLookup_dictPop_ne _ _ _ (by decide),
          create_index_init_desc,
          dictLookup_dictPop_ne _ _ _ (by decide)]
      exact huniq
    obtain ⟨e, he⟩ := herr
    obtain ⟨m, hm2⟩ := create_index_execute_classify _ coll sch nameOut l
      "INDEX" hfd hwfl hU2 hu2 e he
    exact ⟨m, by rw [← hm2]; exact he⟩
  · intro name nameOut coll sch desc l fd tvs hf hm hc htf hp hwfl htd huniq
    have hfd : (CreateCollectionIndexStatement.init name desc).fields_desc
        = .vList l := by
      rw [create_index_init_fields, hf]
      rfl
    have hAT : ((dictPop
        (CreateCollectionIndexStatement.init name desc).index_desc
          "type").1).getD (.vStr "INDEX") =
        (dictLookup desc "type").getD (.vStr "INDEX") := by
      rw [dictPop_fst, create_index_init_desc,
          dictLookup_dictPop_ne _ _ _ (by decide)]
    have herr := create_index_execute_err _ coll sch nameOut l hfd
      (processFields_err_of_mem _ _ _ hm
        (processFieldDesc_collation_err _ fd tvs hc htf hp))
    have hU2 : ∃ u, pyUpper (((dictPop
        (CreateCollectionIndexStatement.init name desc).index_desc
          "type").1).getD (.vStr "INDEX")) = .ok u := by
      rw [hAT]
      cases hlt : dictLookup desc "type" with
      | none => exact ⟨pyStrUpper "INDEX", rfl⟩
      | some t =>
        obtain ⟨s, rfl⟩ := htd t hlt
        exact ⟨pyStrUpper s, rfl⟩
    have hu2 : pyTruthy (((dictPop (dictPop
        (CreateCollectionIndexStatement.init name desc).index_desc
          "type").2 "unique").1).getD (.vBool false)) = false := by
      rw [dictPop_fst, dictLookup_dictPop_ne _ _ _ (by decide),
          create_index_init_desc,
          dictLookup_dictPop_ne _ _ _ (by decide)]
      exact huniq
    obtain ⟨e, he⟩ := herr
    obtain ⟨u, hU3⟩ := hU2
    obtain ⟨m, hm2⟩ := create_index_execute_classify _ coll sch nameOut l
      u hfd hwfl hU3 hu2 e he
    exact ⟨m, by rw [← hm2]; exact he⟩

/-- Witness for C2: each part of the validation matrix applied at a
concrete descriptor. -/
theorem index_descriptor_validation_witness :
    (∃ msg, CreateCollectionIndexStatement.execute
      (CreateCollectionIndexStatement.init (some "idx")
        [("fields", .vList [.vDict [("field", .vStr "$.a"),
                                    ("type", .vStr "GEOJSON")]]),
         ("type", .vStr "SPATIAL")]) "c" "s" (.ok true)
        = .error (.programmingError msg)) ∧
    (∃ msg, CreateCollectionIndexStatement.execute
      (CreateCollectionIndexStatement.init (some "idx")
        [("fields", .vList [.vDict [("field", .vStr "$.a"),
                                    ("type", .vStr "GEOJSON")]])])
      "c" "s" (.ok true) = .error (.programmingError msg)) ∧
    (∃ msg, CreateCollectionIndexStatement.execute
      (CreateCollectionIndexStatement.init (some "idx")
        [("fields", .vList [.vDict [("field", .vStr "$.a"),
                                    ("type", .vStr "INT"),
                                    ("collation",
                                     .vStr "utf8_general_ci")]])])
      "c" "s" (.ok true) = .error (.programmingError msg)) ∧
    (∃ msg, CreateCollectionIndexStatement.execute
        (CreateCollectionIndexStatement.init (some "idx")
          [("fields", .vList [.vDict [("field", .vStr "$.a"),
                                      ("type", .vStr "TEXT(10)")]]),
           ("bogus", .vInt 7)]) "c" "s" (.ok true) =
        .error (.programmingError msg) ∧ strContains msg "bogus") ∧
    (CreateCollectionIndexStatement.execute
        (CreateCollectionIndexStatement.init (some "idx")
          [("fields", .vList ([PyVal.vStr "$.a"].map mkGeoField)),
           ("type", .vStr "SPATIAL")]) "c" "s" (.ok true) =
      .ok { namespaceArg := "mysqlx"
            command := "create_collection_index"
            mustSucceed := true
            args := { name := "idx"
                      collection := "c"
                      schema := "s"
                      type := .vStr "SPATIAL"
                      unique := .vBool false
                      constraint :=
                        [PyVal.vStr "$.a"].map mkGeoConstraint } } ∧
      ([PyVal.vStr "$.a"].map mkGeoConstraint).length =
        [PyVal.vStr "$.a"].length) :=
  ⟨index_descriptor_validation.1 (some "idx") (.ok true) "c" "s" _ _
     [("field", .vStr "$.a"), ("type", .vStr "GEOJSON")] _
     rfl rfl rfl (by simp) rfl
     (by
       intro fd' hm
       have h := List.mem_singleton.mp hm
       subst h
       exact ⟨_, rfl, fun t ht => ⟨"GEOJSON", (Option.some.inj ht).symm⟩⟩)
     rfl,
   index_descriptor_validation.2.1 (some "idx") (.ok true) "c" "s" _ _
     [("field", .vStr "$.a"), ("type", .vStr "GEOJSON")]
     rfl rfl (by simp) rfl
     (by
       intro fd' hm
       have h := List.mem_singleton.mp hm
       subst h
       exact ⟨_, rfl, fun t ht => ⟨"GEOJSON", (Option.some.inj ht).symm⟩⟩)
     rfl,
   index_descriptor_validation.2.2.1 (some "idx") (.ok true) "c" "s" _ _
     [("field", .vStr "$.a"), ("type", .vStr "INT"),
      ("collation", .vStr "utf8_general_ci")] "INT"
     rfl (by simp) rfl rfl rfl
     (by
       intro fd' hm
       have h := List.mem_singleton.mp hm
       subst h
       exact ⟨_, rfl, fun t ht => ⟨"INT", (Option.some.inj ht).symm⟩⟩)
     (by intro t ht; exact Option.noConfusion ht)
     rfl,
   index_descriptor_validation.2.2.2.1 "idx" "c" "s" _ _ "bogus"
     (.vInt 7) rfl (List.cons_ne_nil _ _)
     (List.mem_cons_of_mem _ (List.mem_cons_self _ _))
     (by decide) (by decide) (by decide) rfl,
   index_descriptor_validation.2.2.2.2 "idx" "c" "s" [PyVal.vStr "$.a"]
     (List.cons_ne_nil _ _)⟩

/-! ### Frame lemmas for the heap model (C10) -/

/-- Writing at an address leaves reads of other addresses unchanged. -/
theorem heapGet_heapSet_ne (h : Heap) (a : Nat) (d : HDict) (b : Nat)
    (hne : b ≠ a) : heapGet (heapSet h a d) b = heapGet h b := by
  have : (a == b) = false := by
    simp only [beq_eq_false_iff_ne]
    exact fun hc => hne hc.symm
  simp [heapGet, heapSet, List.find?_cons, this]

/-- `heapExtends` is reflexive above any bound within the allocation
frontier. -/
theorem heapExtends_refl (n : Nat) (h : Heap) (hn : n ≤ h.next) :
    heapExtends n h h :=
  ⟨hn, fun _ _ => rfl⟩

/-- `heapExtends` is transitive. -/
theorem heapExtends_trans (n : Nat) (h1 h2 h3 : Heap)
    (e12 : heapExtends n h1 h2) (e23 : heapExtends n h2 h3) :
    heapExtends n h1 h3 :=
  ⟨e23.1, fun b hb => (e23.2 b hb).trans (e12.2 b hb)⟩

/-- A write at an address at or above the bound preserves
`heapExtends`. -/
theorem heapExtends_set (n : Nat) (h h1 : Heap) (a : Nat) (d : HDict)
    (e : heapExtends n h h1) (ha : n ≤ a) :
    heapExtends n h (heapSet h1 a d) := by
  refine ⟨e.1, fun b hb => ?_⟩
  rw [heapGet_heapSet_ne h1 a d b (by omega)]
  exact e.2 b hb

/-- An allocation preserves `heapExtends` and returns a fresh address at
or above the bound. -/
theorem heapExtends_alloc (n : Nat) (h h1 : Heap) (d : HDict)
    (e : heapExtends n h h1) :
    heapExtends n h (heapAlloc h1 d).1 ∧ n ≤ (heapAlloc h1 d).2 := by
  refine ⟨⟨by have := e.1; simp [heapAlloc]; omega, fun b hb => ?_⟩, by
    simpa [heapAlloc] using e.1⟩
  have hb1 : b ≠ h1.next := by
    have := e.1
    omega
  show heapGet (heapSet { next := h1.next + 1, cells := h1.cells }
    h1.next d) b = heapGet h b
  rw [heapGet_heapSet_ne _ _ _ _ hb1]
  exact e.2 b hb

/-- A heap-dict pop (a write at its own address) preserves
`heapExtends` when the address is at or above the bound. -/
theorem heapExtends_pop (n : Nat) (h h1 : Heap) (a : Nat) (k : String)
    (e : heapExtends n h h1) (ha : n ≤ a) :
    heapExtends n h (heapDictPop h1 a k).1 := by
  have halt : (heapDictPop h1 a k).1 = h1 ∨
      ∃ d, (heapDictPop h1 a k).1 = heapSet h1 a d := by
    unfold heapDictPop
    cases hl : hdictLookup ((heapGet h1 a).getD []) k with
    | none => exact Or.inl (by simp [hl])
    | some v =>
      exact Or.inr ⟨hdictErase ((heapGet h1 a).getD []) k, by simp [hl]⟩
  rcases halt with h' | ⟨d, h'⟩
  · rw [h']
    exact e
  · rw [h']
    exact heapExtends_set n h h1 a d e ha

/-- A successful heap-dict lookup exhibits a member entry. -/
theorem mem_of_hdictLookup (d : HDict) (k : String) (v : HVal)
    (h : hdictLookup d k = some v) : (k, v) ∈ d := by
  induction d with
  | nil => cases h
  | cons kv rest ih =>
    by_cases hk : (kv.1 == k) = true
    · have : some kv.2 = some v := by
        simpa [hdictLookup, List.find?_cons_of_pos, hk] using h
      have hv : kv.2 = v := Option.some.inj this
      have hk' : kv.1 = k := by simpa using hk
      have : (k, v) = kv := by
        cases kv
        simp_all
      rw [this]
      exact List.mem_cons_self _ _
    · have hf : (kv.1 == k) = false := by simpa using hk
      have : hdictLookup rest k = some v := by
        simpa [hdictLookup, List.find?_cons, hf] using h
      exact List.mem_cons_of_mem _ (ih this)

/-- Reading back a freshly allocated cell. -/
theorem heapGet_heapAlloc_self (h : Heap) (d : HDict) :
    heapGet (heapAlloc h d).1 (heapAlloc h d).2 = some d := by
  simp [heapAlloc, heapGet, List.find?_cons]

/-- The value returned by a heap-dict pop is the lookup result. -/
theorem heapDictPop_snd (h : Heap) (a : Nat) (k : String) :
    (heapDictPop h a k).2 = hdictLookup ((heapGet h a).getD []) k := by
  cases hl : hdictLookup ((heapGet h a).getD []) k with
  | none => simp [heapDictPop, hl]
  | some v => simp [heapDictPop, hl]

/-- Copying the field dictionaries preserves the caller's heap and
allocates only fresh addresses. -/
theorem copyAddrs_extends (n : Nat) (l : List Nat) :
    ∀ (h : Heap), n ≤ h.next →
      heapExtends n h (copyAddrs h l).1 ∧
      ∀ a ∈ (copyAddrs h l).2, n ≤ a := by
  induction l with
  | nil =>
    intro h hn
    exact ⟨heapExtends_refl n h hn, by simp [copyAddrs]⟩
  | cons a rest ih =>
    intro h hn
    have hAll := heapExtends_alloc n h h ((heapGet h a).getD [])
      (heapExtends_refl n h hn)
    have ihh := ih (heapAlloc h ((heapGet h a).getD [])).1 hAll.1.1
    constructor
    · show heapExtends n h
        (copyAddrs (heapAlloc h ((heapGet h a).getD [])).1 rest).1
      exact heapExtends_trans n _ _ _ hAll.1 ihh.1
    · intro a' ha'
      have ha'' : a' ∈ (heapAlloc h ((heapGet h a).getD [])).2 ::
          (copyAddrs (heapAlloc h ((heapGet h a).getD [])).1 rest).2 := ha'
      rcases List.mem_cons.mp ha'' with rfl | hmem
      · exact hAll.2
      · exact ihh.2 _ hmem

/-- Deep-copying the descriptor entries preserves the caller's heap, and
every reference list in the copy points to fresh addresses only. -/
theorem copyEntries_extends (n : Nat) (d : HDict) :
    ∀ (h : Heap), n ≤ h.next →
      heapExtends n h (copyEntries h d).1 ∧
      ∀ kv ∈ (copyEntries h d).2, ∀ addrs, kv.2 = HVal.drefs addrs →
        ∀ a ∈ addrs, n ≤ a := by
  induction d with
  | nil =>
    intro h hn
    exact ⟨heapExtends_refl n h hn, by simp [copyEntries]⟩
  | cons kv rest ih =>
    intro h hn
    obtain ⟨k, v⟩ := kv
    cases v with
    | scalar sv =>
      have ihh := ih h hn
      refine ⟨ihh.1, ?_⟩
      intro kv2 hm addrs heq
      have hm' : kv2 ∈ (k, HVal.scalar sv) :: (copyEntries h rest).2 := hm
      rcases List.mem_cons.mp hm' with rfl | hmem
      · cases heq
      · exact ihh.2 kv2 hmem addrs heq
    | drefs addrs0 =>
      have hca := copyAddrs_extends n addrs0 h hn
      have ihh := ih (copyAddrs h addrs0).1 hca.1.1
      refine ⟨?_, ?_⟩
      · show heapExtends n h (copyEntries (copyAddrs h addrs0).1 rest).1
        exact heapExtends_trans n _ _ _ hca.1 ihh.1
      · intro kv2 hm addrs heq
        have hm' : kv2 ∈ (k, HVal.drefs (copyAddrs h addrs0).2) ::
            (copyEntries (copyAddrs h addrs0).1 rest).2 := hm
        rcases List.mem_cons.mp hm' with rfl | hmem
        · injection heq with heq'
          subst heq'
          exact hca.2
        · exact ihh.2 kv2 hmem addrs heq

/-- `__init__` (deep copy plus the `"fields"` pop on the private copy)
preserves the caller's heap below its allocation bound; the statement's
descriptor address and every copied field address are fresh. -/
theorem create_index_heap_init (h : Heap) (name : Option String)
    (a : Nat) :
    heapExtends h.next h (CreateIndexHeapState.init h name a).1 ∧
    h.next ≤ (CreateIndexHeapState.init h name a).2.descAddr ∧
    (∀ addrs, (CreateIndexHeapState.init h name a).2.fields_desc =
      .drefs addrs → ∀ b ∈ addrs, h.next ≤ b) := by
  have hce := copyEntries_extends h.next ((heapGet h a).getD []) h
    (le_refl _)
  have hal := heapExtends_alloc h.next h
    (copyEntries h ((heapGet h a).getD [])).1
    (copyEntries h ((heapGet h a).getD [])).2 hce.1
  have hpop := heapExtends_pop h.next h
    (heapAlloc (copyEntries h ((heapGet h a).getD [])).1
      (copyEntries h ((heapGet h a).getD [])).2).1
    (heapAlloc (copyEntries h ((heapGet h a).getD [])).1
      (copyEntries h ((heapGet h a).getD [])).2).2
    "fields" hal.1 hal.2
  refine ⟨hpop, hal.2, ?_⟩
  intro addrs heq b hb
  have hfd : (CreateIndexHeapState.init h name a).2.fields_desc =
      ((heapDictPop
        (heapAlloc (copyEntries h ((heapGet h a).getD [])).1
          (copyEntries h ((heapGet h a).getD [])).2).1
        (heapAlloc (copyEntries h ((heapGet h a).getD [])).1
          (copyEntries h ((heapGet h a).getD [])).2).2
        "fields").2).getD (.drefs []) := rfl
  rw [hfd, heapDictPop_snd, heapGet_heapAlloc_self] at heq
  simp only [Option.getD_some] at heq
  cases hl : hdictLookup (copyEntries h ((heapGet h a).getD [])).2
      "fields" with
  | none =>
    rw [hl] at heq
    simp at heq
    subst heq
    cases hb
  | some v =>
    rw [hl] at heq
    simp at heq
    subst heq
    exact hce.2 _ (mem_of_hdictLookup _ _ _ hl) addrs rfl b hb

/-- The constraint loop writes only at the (fresh) field addresses, so
the caller's heap below the bound is untouched. -/
theorem processFieldsHeap_extends (n : Nat) (argsType : HVal) :
    ∀ (addrs : List Nat) (h : Heap), n ≤ h.next →
      (∀ a ∈ addrs, n ≤ a) →
      heapExtends n h (processFieldsHeap argsType h addrs).1 := by
  intro addrs
  induction addrs with
  | nil =>
    intro h hn _
    exact heapExtends_refl n h hn
  | cons a rest ih =>
    intro h hn hb
    have hset : heapExtends n h
        (heapSet h a (processFieldCell argsType ((heapGet h a).getD [])).2) :=
      heapExtends_set n h h a _ (heapExtends_refl n h hn)
        (hb a (List.mem_cons_self _ _))
    have ihh := ih
      (heapSet h a (processFieldCell argsType ((heapGet h a).getD [])).2)
      hset.1 (fun x hx => hb x (List.mem_cons_of_mem _ hx))
    cases hres : (processFieldCell argsType ((heapGet h a).getD [])).1 with
    | error e =>
      simp only [processFieldsHeap, hres]
      exact hset
    | ok c =>
      simp only [processFieldsHeap, hres]
      cases hrec : processFieldsHeap argsType
          (heapSet h a
            (processFieldCell argsType ((heapGet h a).getD [])).2) rest with
      | mk h2 res2 =>
        rw [hrec] at ihh
        cases res2 with
        | error e => exact heapExtends_trans n _ _ _ hset ihh
        | ok cs => exact heapExtends_trans n _ _ _ hset ihh

/-- `execute()` in the heap model mutates only the statement's private
copy: the caller's heap below the bound is untouched on every path. -/
theorem executeHeap_extends (n : Nat) (h : Heap)
    (st : CreateIndexHeapState) (nameOut : Except Unit Bool)
    (hn : n ≤ h.next) (hd : n ≤ st.descAddr)
    (hf : ∀ addrs, st.fields_desc = .drefs addrs → ∀ a ∈ addrs, n ≤ a) :
    heapExtends n h (CreateIndexHeapState.execute h st nameOut).1 := by
  have hrefl := heapExtends_refl n h hn
  have hp1 := heapExtends_pop n h h st.descAddr "type" hrefl hd
  have hp2 := heapExtends_pop n h (heapDictPop h st.descAddr "type").1
    st.descAddr "unique" hp1 hd
  simp only [CreateIndexHeapState.execute]
  split
  · exact hrefl
  · split
    · exact hrefl
    · split
      · exact hrefl
      · split
        · exact hrefl
        · split
          · rename_i fieldAddrs heqf
            split
            · exact hp2
            · split
              · exact hp2
              · have hloop := processFieldsHeap_extends n
                  ((heapDictPop h st.descAddr "type").2.getD
                    (.scalar (.vStr "INDEX")))
                  fieldAddrs
                  (heapDictPop (heapDictPop h st.descAddr "type").1
                    st.descAddr "unique").1
                  hp2.1 (hf fieldAddrs heqf)
                have hall := heapExtends_trans n _ _ _ hp2 hloop
                split
                · rename_i h3 e hpf
                  rw [hpf] at hall
                  exact hall
                · rename_i h3 cs hpf
                  rw [hpf] at hall
                  split
                  · exact hall
                  · exact hall
          · rename_i sv
            split
            · exact hrefl
            · exact hrefl

/-- C10: neither constructing a CreateCollectionIndexStatement nor
calling `execute()` on it mutates the caller's index-description
dictionary or any of its nested field dictionaries: every cell of the
caller's heap (all addresses below the allocation bound) reads the same
before and after, for every name outcome. -/
theorem create_index_deepcopy_frame (h : Heap) (a : Nat)
    (name : Option String) (nameOut : Except Unit Bool) (b : Nat)
    (hb : b < h.next) :
    heapGet (CreateIndexHeapState.init h name a).1 b = heapGet h b ∧
    heapGet (CreateIndexHeapState.execute
        (CreateIndexHeapState.init h name a).1
        (CreateIndexHeapState.init h name a).2 nameOut).1 b
      = heapGet h b := by
  have hinit := create_index_heap_init h name a
  have hexec := executeHeap_extends h.next
    (CreateIndexHeapState.init h name a).1
    (CreateIndexHeapState.init h name a).2 nameOut
    hinit.1.1 hinit.2.1 hinit.2.2
  exact ⟨hinit.1.2 b hb,
         (heapExtends_trans _ _ _ _ hinit.1 hexec).2 b hb⟩

/-- Witness for C10: at the concrete caller heap, both the descriptor
cell and the field cell are unchanged by init plus execute. -/
theorem create_index_deepcopy_frame_witness :
    (0 : Nat) < callerHeap.next ∧ (1 : Nat) < callerHeap.next ∧
    heapGet (CreateIndexHeapState.execute
        (CreateIndexHeapState.init callerHeap (some "idx") 0).1
        (CreateIndexHeapState.init callerHeap (some "idx") 0).2
        (.ok true)).1 0
      = heapGet callerHeap 0 ∧
    heapGet (CreateIndexHeapState.execute
        (CreateIndexHeapState.init callerHeap (some "idx") 0).1
        (CreateIndexHeapState.init callerHeap (some "idx") 0).2
        (.ok true)).1 1
      = heapGet callerHeap 1 :=
  ⟨by decide, by decide,
   (create_index_deepcopy_frame callerHeap 0 (some "idx") (.ok true) 0
     (by decide)).2,
   (create_index_deepcopy_frame callerHeap 0 (some "idx") (.ok true) 1
     (by decide)).2⟩
